import Mathlib

/-!
# Load tester (`load-tester/main.go`): run state machine and rate profiles

A shallow embedding of the load-generation engine of `load-tester/main.go`.

Modelling conventions.

* Go `int` is the 64-bit two's-complement integer: the results of `+`, `-` and
  `*` in `calculateRPS` are wrapped by `wrap64`.  The request counters are
  mathematical integers (they grow by one per request).
* `time.Time` and `time.Duration` are integer nanosecond counts.
* `float64` values are the rationals they denote, and every `float64`
  operation and conversion is rounded to the nearest binary64 value, ties to
  even (`f64`), one operation at a time (no fused multiply-add, as compiled for
  amd64).  Infinities and NaN are not represented: all magnitudes here stay
  far below `2^1024`.  `int(x)` is truncation toward zero, used on values below
  `2^63` only.
* What the runtime supplies to one evaluation of `calculateRPS` (the clock,
  `math.Sin`, the two `math/rand` draws) is an explicit `Env` argument.
* A panic is the `Except.error` result.
* The mutexes, the cancellation context, the stop channel and the wait group of
  `LoadTester` carry no data of the run state.  A handler runs under
  `testerMutex` and is one step; a block under the state lock is one step; the
  unlocked flag check and computation of a controller firing and its locked
  write are two steps, between which other steps may occur.
-/

namespace LoadTest

/-! ## Data model -/

/-- Go struct `EndpointConfig`. -/
structure EndpointConfig where
  Name : String
  Method : String
  Path : String
  Description : String
  NeedsBody : Bool
deriving DecidableEq

/-- Go struct `LoadProfile`; the field `Type` is spelled `Kind` here, `Type`
being reserved. -/
structure LoadProfile where
  Name : String
  Description : String
  Kind : String
deriving DecidableEq

/-- Go struct `AppState`; `StartTime` is a nanosecond timestamp. -/
structure AppState where
  Running : Bool
  RPS : Int
  CurrentRPS : Int
  Endpoint : String
  Profile : String
  TotalReqs : Int
  SuccessReqs : Int
  ErrorReqs : Int
  StartTime : Int
  Endpoints : List EndpointConfig
  Profiles : List LoadProfile
deriving DecidableEq

/-- Package variable `endpoints`. -/
def endpoints : List EndpointConfig :=
  [ ⟨"Главная страница", "GET", "/", "Главная страница приюта", false⟩,
    ⟨"Список животных", "GET", "/animals", "Получить список всех животных", false⟩,
    ⟨"Добавить животное", "POST", "/api/animals", "Добавить новое животное", true⟩,
    ⟨"Метрики", "GET", "/metrics", "Метрики Prometheus", false⟩,
    ⟨"Документация", "GET", "/docs", "Документация API", false⟩,
    ⟨"Замедлялка", "GET", "/slow", "Замедлялка", false⟩ ]

/-- Package variable `profiles`. -/
def profiles : List LoadProfile :=
  [ ⟨"Постоянная нагрузка", "Стабильный RPS на протяжении всего теста", "constant"⟩,
    ⟨"Постепенное нарастание", "Плавное увеличение RPS от 1 до заданного значения", "ramp_up"⟩,
    ⟨"Пиковая нагрузка", "Резкий скачок до максимума, затем постоянная нагрузка", "spike"⟩,
    ⟨"Волнообразная нагрузка", "Циклические колебания RPS (синусоида)", "wave"⟩,
    ⟨"Ступенчатая нагрузка", "Пошаговое увеличение нагрузки каждые 30 секунд", "step"⟩,
    ⟨"Стресс-тест", "Экстремальная нагрузка с случайными всплесками", "stress"⟩ ]

/-- Go struct `LoadTester`, restricted to the fields that hold data: the run
state and the atomic `isRunning` flag. -/
structure LoadTester where
  state : AppState
  isRunning : Int
deriving DecidableEq

/-- The value `main` assigns to the package variable `loadTester`. -/
def initialLoadTester : LoadTester :=
  { state :=
      { Running := false, RPS := 10, CurrentRPS := 0, Endpoint := "/animals",
        Profile := "constant", TotalReqs := 0, SuccessReqs := 0, ErrorReqs := 0,
        StartTime := 0, Endpoints := endpoints, Profiles := profiles },
    isRunning := 0 }

/-! ## The HTTP surface of `/start` and `/stop` -/

/-- The anonymous request struct decoded by `startHandler`. -/
structure StartRequest where
  Endpoint : String
  RPS : Int
  Profile : String
deriving DecidableEq

/-- What a handler reads of an `*http.Request`: the method and the outcome of
decoding the JSON body (`none` when `Decode` returns an error). -/
structure HttpRequest where
  Method : String
  Body : Option StartRequest
deriving DecidableEq

/-- What a handler writes to the `http.ResponseWriter`. -/
structure Response where
  status : Nat
  body : String
deriving DecidableEq

/-- Go `http.Error(w, msg, code)`: the message followed by a newline. -/
def httpError (msg : String) (code : Nat) : Response :=
  { status := code, body := msg ++ "\n" }

/-- Go `fmt.Fprintf(w, msg)` on a fresh writer: status 200. -/
def httpOk (msg : String) : Response :=
  { status := 200, body := msg }

/-- Go `http.StatusMethodNotAllowed`. -/
def StatusMethodNotAllowed : Nat := 405

/-- Go `http.StatusBadRequest`. -/
def StatusBadRequest : Nat := 400

/-! ## Stop and start -/

/-- Go `(*LoadTester).forceStop`: clears the atomic flag, then under the state
lock sets `Running = false` and `CurrentRPS = 0`.  Cancelling the context,
signalling the stop channel and the bounded wait for the wait group touch no
field of the run state. -/
def forceStop (lt : LoadTester) : LoadTester :=
  let lt := { lt with isRunning := 0 }
  { lt with state := { lt.state with Running := false, CurrentRPS := 0 } }

/-- Go `startHandler`; `now` is the reading of `time.Now()`. -/
def startHandler (lt : LoadTester) (r : HttpRequest) (now : Int) : LoadTester × Response :=
  if r.Method ≠ "POST" then
    (lt, httpError "Method not allowed" StatusMethodNotAllowed)
  else
    match r.Body with
    | none => (lt, httpError "Invalid request body" StatusBadRequest)
    | some req =>
      if lt.state.Running || lt.isRunning == 1 then
        (lt, httpOk "Already running")
      else if req.RPS ≤ 0 || req.RPS > 1000 then
        (lt, httpError "RPS must be between 1 and 1000" StatusBadRequest)
      else
        let lt := forceStop lt
        let st := { lt.state with
          RPS := req.RPS, CurrentRPS := 1, Endpoint := req.Endpoint,
          Profile := req.Profile, Running := true, TotalReqs := 0,
          SuccessReqs := 0, ErrorReqs := 0, StartTime := now }
        let st :=
          if req.Profile = "constant" || req.Profile = "spike" then
            { st with CurrentRPS := req.RPS }
          else st
        let lt := { lt with state := st }
        let lt := { lt with isRunning := 1 }
        (lt, httpOk ("Started load test for " ++ req.Endpoint ++ " with " ++
          toString req.RPS ++ " RPS using " ++ req.Profile ++ " profile"))

/-- Go `stopHandler`. -/
def stopHandler (lt : LoadTester) (r : HttpRequest) : LoadTester × Response :=
  if r.Method ≠ "POST" then
    (lt, httpError "Method not allowed" StatusMethodNotAllowed)
  else if !lt.state.Running then
    (lt, httpOk "Not running")
  else
    (forceStop lt, httpOk "Stopped")

/-! ## Machine arithmetic -/

/-- Wrap-around of a 64-bit signed integer: the value of `[-2^63, 2^63)`
congruent to `x` modulo `2^64`. -/
def wrap64 (x : Int) : Int :=
  (x + 9223372036854775808) % 18446744073709551616 - 9223372036854775808

/-- Round a rational to the nearest integer, ties to the even one. -/
def roundEven (x : ℚ) : Int :=
  if x - ⌊x⌋ < 1 / 2 then ⌊x⌋
  else if 1 / 2 < x - ⌊x⌋ then ⌊x⌋ + 1
  else if ⌊x⌋ % 2 = 0 then ⌊x⌋ else ⌊x⌋ + 1

/-- Exponent of the unit in the last place of binary64 at magnitude `q`:
`floor(log2 q) - 52`, and `-1074` in the subnormal range. -/
def ulpExp (q : ℚ) : Int := max (Int.log 2 q - 52) (-1074)

/-- Binary64 rounding of a non-negative rational: the nearest multiple of the
unit in the last place, ties to even. -/
def roundPos (q : ℚ) : ℚ := (roundEven (q / 2 ^ ulpExp q) : ℚ) * 2 ^ ulpExp q

/-- IEEE-754 binary64 rounding (round to nearest, ties to even). -/
def f64 (q : ℚ) : ℚ := if 0 ≤ q then roundPos q else - roundPos (-q)

/-! ## Time, conversions and the random source -/

/-- Go `time.Second`, in nanoseconds. -/
def Second : Int := 1000000000

/-- Go `Duration.Seconds`: `float64(d / Second) + float64(d % Second) / 1e9`. -/
def Seconds (d : Int) : ℚ :=
  f64 (f64 ((d.tdiv Second : Int) : ℚ) + f64 (f64 ((d.tmod Second : Int) : ℚ) / 1000000000))

/-- Go `time.Since(t)` when the clock reads `now`. -/
def Since (now t : Int) : Int := now - t

/-- Go conversion `int(x)` of a `float64`: truncation toward zero. -/
def toInt (x : ℚ) : Int := if 0 ≤ x then ⌊x⌋ else ⌈x⌉

/-- Go constant `math.Pi` as a `float64`: `884279719003555 / 2^48`. -/
def mathPi : ℚ := 884279719003555 / 281474976710656

/-- Go `rand.Intn(n)`: panics when `n <= 0`, otherwise a value of `[0, n)`;
`raw` is the draw of the underlying source. -/
def randIntn (raw : Nat) (n : Int) : Except String Int :=
  if n ≤ 0 then .error "invalid argument to Intn" else .ok ((raw : Int) % n)

/-- Go integer division `a / b`: panics on a zero divisor, truncates otherwise. -/
def intDiv (a b : Int) : Except String Int :=
  if b = 0 then .error "runtime error: integer divide by zero" else .ok (a.tdiv b)

/-- What the runtime supplies to one evaluation of `calculateRPS`: the clock
reading, `math.Sin`, the draw of `rand.Float64()` and the draw behind
`rand.Intn`. -/
structure Env where
  now : Int
  sin : ℚ → ℚ
  randFloat64 : ℚ
  randRaw : Nat

/-! ## Rate profiles -/

/-- Go `(*LoadTester).calculateRPS`.  The constant `2 * math.Pi` is exact in Go
and becomes a `float64` at its first use, which is `2 * mathPi`; the constant
`0.1` becomes the `float64` nearest to one tenth. -/
def calculateRPS (lt : LoadTester) (env : Env) (profile : String) (maxRPS : Int) :
    Except String Int :=
  let startTime := lt.state.StartTime
  let elapsed : ℚ := Seconds (Since env.now startTime)
  match profile with
  | "constant" => .ok maxRPS
  | "ramp_up" =>
    let duration : ℚ := 60
    if elapsed ≥ duration then .ok maxRPS
    else
      let progress := f64 (elapsed / duration)
      .ok (toInt (f64 (1 + f64 (f64 ((wrap64 (maxRPS - 1) : Int) : ℚ) * progress))))
  | "spike" =>
    if elapsed < 5 then .ok 1 else .ok maxRPS
  | "wave" =>
    let period : ℚ := 60
    let amplitude : ℚ := f64 (f64 (maxRPS : ℚ) / 2)
    let baseline := amplitude
    let wave := env.sin (f64 (f64 (2 * mathPi * elapsed) / period))
    .ok (toInt (f64 (baseline + f64 (amplitude * wave))))
  | "step" =>
    let step := toInt (f64 (elapsed / 30))
    let stepSize := maxRPS.tdiv 5
    let stepSize := if stepSize = 0 then 1 else stepSize
    let rps := wrap64 (wrap64 (step + 1) * stepSize)
    if rps > maxRPS then .ok maxRPS else .ok rps
  | "stress" =>
    let baseRPS := maxRPS.tdiv 3
    if env.randFloat64 < f64 (1 / 10) then .ok maxRPS
    else
      match randIntn env.randRaw (maxRPS.tdiv 2) with
      | .error e => .error e
      | .ok r =>
        let variableRPS := wrap64 (baseRPS + r)
        if variableRPS > maxRPS then .ok maxRPS else .ok variableRPS
  | _ => .ok maxRPS

/-! ## The run loop -/

/-- Locals of `runLoadTest` that its rate-controller goroutine captures, and the
period of the dispatch ticker. -/
structure RunLocals where
  currentRPS : Int
  profile : String
  maxRPS : Int
  tickPeriod : Int
deriving DecidableEq

/-- Go `time.NewTicker(d)`. -/
def NewTicker (d : Int) : Except String Int :=
  if d ≤ 0 then .error "non-positive interval for NewTicker" else .ok d

/-- Go `(*Ticker).Reset(d)`. -/
def tickerReset (d : Int) : Except String Int :=
  if d ≤ 0 then .error "non-positive interval for Ticker.Reset" else .ok d

/-- The prologue of Go `runLoadTest`: reads the run state and creates the
dispatch ticker with period `time.Second / time.Duration(currentRPS)`.  It runs
in the goroutine that `startHandler` spawns, at any time after the handler's
writes. -/
def runLoadTest.init (lt : LoadTester) : Except String RunLocals :=
  let currentRPS := lt.state.CurrentRPS
  let profile := lt.state.Profile
  let maxRPS := lt.state.RPS
  match intDiv Second currentRPS with
  | .error e => .error e
  | .ok d =>
    match NewTicker d with
    | .error e => .error e
    | .ok period =>
      .ok { currentRPS := currentRPS, profile := profile, maxRPS := maxRPS,
            tickPeriod := period }

/-- The unlocked half of one firing of the rate controller (the
`case <-profileTicker.C` branch of the goroutine started by `runLoadTest`):
the check of the atomic flag, `calculateRPS`, the comparison and
`ticker.Reset`.  Returns the rate the firing goes on to write to the run state,
if any, and the new locals. -/
def runLoadTest.profileDecide (lt : LoadTester) (l : RunLocals) (env : Env) :
    Except String (Option Int × RunLocals) :=
  if lt.isRunning == 0 then .ok (none, l)
  else
    match calculateRPS lt env l.profile l.maxRPS with
    | .error e => .error e
    | .ok newRPS =>
      if newRPS != l.currentRPS && newRPS > 0 then
        let currentRPS := newRPS
        match intDiv Second currentRPS with
        | .error e => .error e
        | .ok d =>
          match tickerReset d with
          | .error e => .error e
          | .ok period =>
            .ok (some currentRPS, { l with currentRPS := currentRPS, tickPeriod := period })
      else .ok (none, l)

/-- The locked half of one firing: `lt.state.CurrentRPS = currentRPS` under the
state lock, with no check of `Running` or of the atomic flag. -/
def runLoadTest.profileWrite (lt : LoadTester) (currentRPS : Int) : LoadTester :=
  { lt with state := { lt.state with CurrentRPS := currentRPS } }

/-- One firing of the rate controller with no step of another goroutine between
its two halves. -/
def runLoadTest.profileTick (lt : LoadTester) (l : RunLocals) (env : Env) :
    Except String (LoadTester × RunLocals) :=
  match runLoadTest.profileDecide lt l env with
  | .error e => .error e
  | .ok (none, l2) => .ok (lt, l2)
  | .ok (some currentRPS, l2) => .ok (runLoadTest.profileWrite lt currentRPS, l2)

/-- The end of one dispatched request in `runLoadTest`, from the return of
`makeRequestWithContext` on; `failed` is `err != nil`.  The counters are
written under the state lock after `Running` and the flag are checked again. -/
def runLoadTest.requestDone (lt : LoadTester) (failed : Bool) : LoadTester :=
  if lt.isRunning == 0 then lt
  else if lt.state.Running && lt.isRunning == 1 then
    let st := { lt.state with TotalReqs := lt.state.TotalReqs + 1 }
    let st :=
      if failed then { st with ErrorReqs := st.ErrorReqs + 1 }
      else { st with SuccessReqs := st.SuccessReqs + 1 }
    { lt with state := st }
  else lt

/-- The deferred `atomic.StoreInt32(&lt.isRunning, 0)` of `runLoadTest`. -/
def runLoadTest.exit (lt : LoadTester) : LoadTester :=
  { lt with isRunning := 0 }

/-! ## The transition system of the run state -/

/-- One step of a handler or of a request goroutine on the shared
`LoadTester`. -/
inductive Step : LoadTester → LoadTester → Prop
  | start (lt : LoadTester) (r : HttpRequest) (now : Int) :
      Step lt (startHandler lt r now).1
  | stop (lt : LoadTester) (r : HttpRequest) :
      Step lt (stopHandler lt r).1
  | forceStop (lt : LoadTester) :
      Step lt (forceStop lt)
  | requestDone (lt : LoadTester) (failed : Bool) :
      Step lt (runLoadTest.requestDone lt failed)
  | exit (lt : LoadTester) :
      Step lt (runLoadTest.exit lt)

/-- `Trace lt pending`: after finitely many steps from the value set up by
`main` the shared state is `lt`, and `pending` lists the rates that controller
firings have decided on in their unlocked half and have not yet written. -/
inductive Trace : LoadTester → List Int → Prop
  | init : Trace initialLoadTester []
  | step (lt lt2 : LoadTester) (pending : List Int) :
      Trace lt pending → Step lt lt2 → Trace lt2 pending
  | decided (lt : LoadTester) (pending : List Int) (l l2 : RunLocals) (env : Env) (n : Int) :
      Trace lt pending → runLoadTest.profileDecide lt l env = .ok (some n, l2) →
      Trace lt (n :: pending)
  | written (lt : LoadTester) (pending : List Int) (n : Int) :
      Trace lt pending → n ∈ pending →
      Trace (runLoadTest.profileWrite lt n) (pending.erase n)

/-- States the engine can be in after finitely many steps from the value set
up by `main`. -/
def Reachable (lt : LoadTester) : Prop := ∃ pending : List Int, Trace lt pending

/-! ## Invariants and sample inputs -/

/-- The counters agree: every recorded request is a success or an error. -/
def StatsOk (lt : LoadTester) : Prop :=
  lt.state.TotalReqs = lt.state.SuccessReqs + lt.state.ErrorReqs

/-- A run in progress: started at time 1000 for `/animals` at 10 RPS with the
constant profile, five requests recorded. -/
def busyTester : LoadTester :=
  { state :=
      { Running := true, RPS := 10, CurrentRPS := 10, Endpoint := "/animals",
        Profile := "constant", TotalReqs := 5, SuccessReqs := 4, ErrorReqs := 1,
        StartTime := 1000, Endpoints := endpoints, Profiles := profiles },
    isRunning := 1 }

/-- The start request that begins the run of `busyTester`. -/
def animalsRequest : HttpRequest :=
  { Method := "POST",
    Body := some { Endpoint := "/animals", RPS := 10, Profile := "constant" } }

/-- A well-formed start request for `/` at 20 RPS with the spike profile. -/
def restartRequest : HttpRequest :=
  { Method := "POST", Body := some { Endpoint := "/", RPS := 20, Profile := "spike" } }

/-- A start request whose rate is 0. -/
def zeroRateRequest : HttpRequest :=
  { Method := "POST", Body := some { Endpoint := "/", RPS := 0, Profile := "constant" } }

/-- A start request whose rate is 1001. -/
def overRateRequest : HttpRequest :=
  { Method := "POST", Body := some { Endpoint := "/", RPS := 1001, Profile := "constant" } }

/-- A start request for the stress profile at 1 RPS. -/
def stressRequest : HttpRequest :=
  { Method := "POST", Body := some { Endpoint := "/animals", RPS := 1, Profile := "stress" } }

/-- A concrete runtime: the clock reads `now`, `math.Sin` is replaced by its
degree-five Taylor polynomial (exact at 0), `rand.Float64()` draws `1/2` and the
source behind `rand.Intn` draws `raw`. -/
def sampleEnv (now : Int) (raw : Nat) : Env :=
  { now := now, sin := fun x => x - x ^ 3 / 6 + x ^ 5 / 120, randFloat64 := 1 / 2,
    randRaw := raw }

/-- The rate-controller goroutine of `runLoadTest` over a sequence of firings of
its `profileTicker`, one runtime `Env` per firing.  A firing that finds the
atomic flag cleared ends the goroutine; `profileTick` then changes nothing, and
neither does any later firing. -/
def runLoadTest.profileLoop (lt : LoadTester) (l : RunLocals) :
    List Env → Except String (LoadTester × RunLocals)
  | [] => .ok (lt, l)
  | env :: rest =>
    match runLoadTest.profileTick lt l env with
    | .error e => .error e
    | .ok (lt2, l2) => runLoadTest.profileLoop lt2 l2 rest

/-- The dispatcher of a run is well tuned: its rate lies in `[1, maxRPS]` with
`maxRPS <= 1000`, the profile is not the stress profile, the ticker period is
`time.Second / currentRPS`, and the run state shows the same rate. -/
def TickOk (lt : LoadTester) (l : RunLocals) : Prop :=
  1 ≤ l.currentRPS ∧ l.currentRPS ≤ l.maxRPS ∧ l.maxRPS ≤ 1000 ∧
  l.profile ≠ "stress" ∧ l.tickPeriod = Second / l.currentRPS ∧
  lt.state.CurrentRPS = l.currentRPS

/-- A well-formed start request for `/animals` at 100 RPS with the ramp-up
profile. -/
def rampRequest : HttpRequest :=
  { Method := "POST",
    Body := some { Endpoint := "/animals", RPS := 100, Profile := "ramp_up" } }

/-- A concrete runtime whose stand-in for `math.Sin` stays in `[-1, 1]`: the
degree-five Taylor polynomial clamped to that interval. -/
def boundedEnv (now : Int) : Env :=
  { now := now, sin := fun x => max (-1) (min 1 (x - x ^ 3 / 6 + x ^ 5 / 120)),
    randFloat64 := 1 / 2, randRaw := 0 }


/-- A well-formed stop request. -/
def stopRequest : HttpRequest :=
  { Method := "POST", Body := none }

/-! ## Case analysis of the steps -/

theorem startHandler_cases (lt : LoadTester) (r : HttpRequest) (now : Int) :
    (startHandler lt r now).1 = lt ∨
    ∃ req : StartRequest, 1 ≤ req.RPS ∧ req.RPS ≤ 1000 ∧
      (startHandler lt r now).1 =
        { state := { lt.state with
            Running := true, RPS := req.RPS,
            CurrentRPS := if req.Profile = "constant" ∨ req.Profile = "spike" then req.RPS else 1,
            Endpoint := req.Endpoint, Profile := req.Profile, TotalReqs := 0,
            SuccessReqs := 0, ErrorReqs := 0, StartTime := now },
          isRunning := 1 } := by
  unfold startHandler
  by_cases hm : r.Method ≠ "POST"
  · simp [hm]
  · rcases hb : r.Body with _ | req
    · simp [hm]
    · by_cases hg : (lt.state.Running || lt.isRunning == 1) = true
      · simp [hm, hg]
      · by_cases hbad : (decide (req.RPS ≤ 0) || decide (req.RPS > 1000)) = true
        · simp [hm, hg, hbad]
        · right
          refine ⟨req, ?_, ?_, ?_⟩
          · simp at hbad; omega
          · simp at hbad; omega
          · by_cases hp : req.Profile = "constant" ∨ req.Profile = "spike"
            · simp [hm, hg, hbad, hp, forceStop]
            · simp [hm, hg, hbad, hp, forceStop]

theorem startHandler_guard (lt : LoadTester) (r : HttpRequest) (now : Int)
    (req : StartRequest) (hm : r.Method = "POST") (hb : r.Body = some req)
    (hrun : lt.state.Running = true ∨ lt.isRunning = 1) :
    startHandler lt r now = (lt, httpOk "Already running") := by
  have hg : (lt.state.Running || lt.isRunning == 1) = true := by
    rcases hrun with h | h
    · simp [h]
    · simp [h]
  simp [startHandler, hm, hb, hg]

theorem stopHandler_cases (lt : LoadTester) (r : HttpRequest) :
    (stopHandler lt r).1 = lt ∨ (stopHandler lt r).1 = forceStop lt := by
  unfold stopHandler
  by_cases hm : r.Method ≠ "POST"
  · simp [hm]
  · by_cases hr : lt.state.Running = true
    · simp [hm, hr]
    · simp [hm, hr]

theorem requestDone_cases (lt : LoadTester) (failed : Bool) :
    runLoadTest.requestDone lt failed = lt ∨
    (failed = true ∧ runLoadTest.requestDone lt failed =
      { lt with state := { lt.state with
          TotalReqs := lt.state.TotalReqs + 1, ErrorReqs := lt.state.ErrorReqs + 1 } }) ∨
    (failed = false ∧ runLoadTest.requestDone lt failed =
      { lt with state := { lt.state with
          TotalReqs := lt.state.TotalReqs + 1, SuccessReqs := lt.state.SuccessReqs + 1 } }) := by
  unfold runLoadTest.requestDone
  by_cases h0 : (lt.isRunning == 0) = true
  · simp [h0]
  · by_cases h1 : (lt.state.Running && lt.isRunning == 1) = true
    · cases failed
      · right; right
        simp [h0, h1]
      · right; left
        simp [h0, h1]
    · simp [h0, h1]

/-! ## Preservation of the counter invariant -/

theorem step_preserves_stats (lt lt2 : LoadTester) (hs : Step lt lt2) (h : StatsOk lt) :
    StatsOk lt2 := by
  unfold StatsOk at *
  cases hs with
  | start r now =>
    rcases startHandler_cases lt r now with he | ⟨req, _, _, he⟩
    · rw [he]; exact h
    · rw [he]; simp
  | stop r =>
    rcases stopHandler_cases lt r with he | he
    · rw [he]; exact h
    · rw [he]; simpa [forceStop] using h
  | forceStop => simpa [forceStop] using h
  | requestDone failed =>
    rcases requestDone_cases lt failed with he | ⟨_, he⟩ | ⟨_, he⟩
    · rw [he]; exact h
    · rw [he]; simp only; omega
    · rw [he]; simp only; omega
  | exit => simpa [runLoadTest.exit] using h

theorem trace_stats (lt : LoadTester) (pending : List Int) (ht : Trace lt pending) :
    StatsOk lt := by
  induction ht with
  | init => simp [StatsOk, initialLoadTester]
  | step a b _ _ hs ih => exact step_preserves_stats a b hs ih
  | decided _ _ _ _ _ _ _ _ ih => exact ih
  | written a _ n _ _ ih => simpa [StatsOk, runLoadTest.profileWrite] using ih

theorem reachable_stats (lt : LoadTester) (hr : Reachable lt) : StatsOk lt := by
  obtain ⟨pending, ht⟩ := hr
  exact trace_stats lt pending ht

/-- The sample run `busyTester` is reachable: one accepted start followed by
four successful and one failed request. -/
theorem busyTester_reachable : Reachable busyTester := by
  have h1 := Trace.step _ _ _ Trace.init (Step.start initialLoadTester animalsRequest 1000)
  have h2 := Trace.step _ _ _ h1 (Step.requestDone _ false)
  have h3 := Trace.step _ _ _ h2 (Step.requestDone _ false)
  have h4 := Trace.step _ _ _ h3 (Step.requestDone _ false)
  have h5 := Trace.step _ _ _ h4 (Step.requestDone _ false)
  have h6 := Trace.step _ _ _ h5 (Step.requestDone _ true)
  have e : runLoadTest.requestDone (runLoadTest.requestDone (runLoadTest.requestDone
      (runLoadTest.requestDone (runLoadTest.requestDone
        (startHandler initialLoadTester animalsRequest 1000).1 false) false) false) false) true
      = busyTester := by decide
  rw [e] at h6
  exact ⟨[], h6⟩

/-! ## Start and stop (claims C1, C2, C9, C10) -/

/-- C1 (amended): in every state in which a run is already running (the
`Running` field is set or the atomic flag is 1), a well-formed start request,
whatever its rate, is answered with "Already running" and the state is returned
as it was: the prior run is not terminated and no new run is created. -/
theorem startHandler_while_running (lt : LoadTester) (r : HttpRequest) (now : Int)
    (req : StartRequest) (hm : r.Method = "POST") (hb : r.Body = some req)
    (hrun : lt.state.Running = true ∨ lt.isRunning = 1) :
    startHandler lt r now = (lt, httpOk "Already running") :=
  startHandler_guard lt r now req hm hb hrun

/-- Witness for C1 (amended): the running sample state and a valid request. -/
theorem startHandler_while_running_witness :
    startHandler busyTester restartRequest 2000 = (busyTester, httpOk "Already running") :=
  startHandler_while_running busyTester restartRequest 2000
    { Endpoint := "/", RPS := 20, Profile := "spike" } rfl rfl (Or.inl rfl)

/-- Counterexample to C1 as stated: a reachable running state and a valid start
request at 20 RPS after which the state does not carry the requested endpoint,
profile and rate with zeroed counters. -/
theorem startHandler_restart_counterexample :
    Reachable busyTester ∧
    busyTester.state.Running = true ∧
    restartRequest.Method = "POST" ∧
    restartRequest.Body = some { Endpoint := "/", RPS := 20, Profile := "spike" } ∧
    ¬ ((startHandler busyTester restartRequest 2000).1.state.Running = true ∧
       (startHandler busyTester restartRequest 2000).1.state.Endpoint = "/" ∧
       (startHandler busyTester restartRequest 2000).1.state.Profile = "spike" ∧
       (startHandler busyTester restartRequest 2000).1.state.RPS = 20 ∧
       (startHandler busyTester restartRequest 2000).1.state.TotalReqs = 0 ∧
       (startHandler busyTester restartRequest 2000).1.state.SuccessReqs = 0 ∧
       (startHandler busyTester restartRequest 2000).1.state.ErrorReqs = 0) := by
  exact ⟨busyTester_reachable, by decide⟩

/-- C2 (amended): for every state and every well-formed start request whose rate
is outside `[1, 1000]`, the state is left unchanged; the reply is the
"RPS must be between 1 and 1000" rejection (status 400) when no run is running,
and "Already running" (status 200) when one is. -/
theorem startHandler_invalid_rps (lt : LoadTester) (r : HttpRequest) (now : Int)
    (req : StartRequest) (hm : r.Method = "POST") (hb : r.Body = some req)
    (hrps : req.RPS < 1 ∨ 1000 < req.RPS) :
    (startHandler lt r now).1 = lt ∧
    (startHandler lt r now).2 =
      if lt.state.Running = true ∨ lt.isRunning = 1 then httpOk "Already running"
      else httpError "RPS must be between 1 and 1000" StatusBadRequest := by
  by_cases hrun : lt.state.Running = true ∨ lt.isRunning = 1
  · rw [startHandler_guard lt r now req hm hb hrun]
    simp [hrun]
  · have hg : (lt.state.Running || lt.isRunning == 1) = false := by
      simp only [not_or] at hrun
      simp [hrun.1, hrun.2]
    have hbad : (decide (req.RPS ≤ 0) || decide (req.RPS > 1000)) = true := by
      rcases hrps with h | h
      · have : req.RPS ≤ 0 := by omega
        simp [this]
      · simp [h]
    simp [startHandler, hm, hb, hg, hbad, hrun]

/-- Witness for C2 (amended): rate 1001 on the idle initial state. -/
theorem startHandler_invalid_rps_witness :
    (startHandler initialLoadTester overRateRequest 2000).1 = initialLoadTester ∧
    (startHandler initialLoadTester overRateRequest 2000).2 =
      httpError "RPS must be between 1 and 1000" StatusBadRequest := by
  have h := startHandler_invalid_rps initialLoadTester overRateRequest 2000
    { Endpoint := "/", RPS := 1001, Profile := "constant" } rfl rfl (Or.inr (by decide))
  exact ⟨h.1, h.2.trans (by decide)⟩

/-- Counterexample to C2 as stated: with a run in progress, a start request at
rate 0 is answered "Already running" with status 200, not with the
invalid-rate rejection. -/
theorem startHandler_invalid_rps_counterexample :
    Reachable busyTester ∧
    busyTester.state.Running = true ∧
    zeroRateRequest.Body = some { Endpoint := "/", RPS := 0, Profile := "constant" } ∧
    (startHandler busyTester zeroRateRequest 2000).2 = httpOk "Already running" ∧
    (startHandler busyTester zeroRateRequest 2000).2 ≠
      httpError "RPS must be between 1 and 1000" StatusBadRequest := by
  exact ⟨busyTester_reachable, by decide⟩

/-- C9: a well-formed start request with `1 <= rps <= 1000`, issued when no run
is running, yields `Running = true`, `RPS = rps`, the requested endpoint and
profile, zeroed counters, and `CurrentRPS = rps` for the profiles "constant" and
"spike", `CurrentRPS = 1` for every other profile. -/
theorem startHandler_from_idle (lt : LoadTester) (r : HttpRequest) (now : Int)
    (req : StartRequest) (hm : r.Method = "POST") (hb : r.Body = some req)
    (hlo : 1 ≤ req.RPS) (hhi : req.RPS ≤ 1000)
    (hidle : lt.state.Running = false) (hflag : lt.isRunning ≠ 1) :
    (startHandler lt r now).1.state.Running = true ∧
    (startHandler lt r now).1.state.RPS = req.RPS ∧
    (startHandler lt r now).1.state.Endpoint = req.Endpoint ∧
    (startHandler lt r now).1.state.Profile = req.Profile ∧
    (startHandler lt r now).1.state.TotalReqs = 0 ∧
    (startHandler lt r now).1.state.SuccessReqs = 0 ∧
    (startHandler lt r now).1.state.ErrorReqs = 0 ∧
    (startHandler lt r now).1.state.CurrentRPS =
      (if req.Profile = "constant" ∨ req.Profile = "spike" then req.RPS else 1) := by
  have hg : (lt.state.Running || lt.isRunning == 1) = false := by
    simp [hidle, hflag]
  have hok : (decide (req.RPS ≤ 0) || decide (req.RPS > 1000)) = false := by
    have h1 : ¬ req.RPS ≤ 0 := by omega
    have h2 : ¬ req.RPS > 1000 := by omega
    simp [h1, h2]
  by_cases hp : req.Profile = "constant" ∨ req.Profile = "spike"
  · simp [startHandler, hm, hb, hg, hok, hp, forceStop]
  · simp [startHandler, hm, hb, hg, hok, hp, forceStop]

/-- Witness for C9: the stress request at 1 RPS on the idle initial state. -/
theorem startHandler_from_idle_witness :
    (startHandler initialLoadTester stressRequest 2000).1.state.Running = true ∧
    (startHandler initialLoadTester stressRequest 2000).1.state.RPS = 1 ∧
    (startHandler initialLoadTester stressRequest 2000).1.state.Profile = "stress" ∧
    (startHandler initialLoadTester stressRequest 2000).1.state.CurrentRPS = 1 := by
  have h := startHandler_from_idle initialLoadTester stressRequest 2000
    { Endpoint := "/animals", RPS := 1, Profile := "stress" } rfl rfl
    (by decide) (by decide) rfl (by decide)
  exact ⟨h.1, h.2.1, h.2.2.2.1, h.2.2.2.2.2.2.2.trans (by decide)⟩

/-- C10: `forceStop` yields `Running = false` and `CurrentRPS = 0` and leaves
every other field of the run state as it was: the three counters, the
configured rate, the endpoint, the profile, the start time and the two
catalogues. -/
theorem forceStop_frame (lt : LoadTester) :
    (forceStop lt).state.Running = false ∧
    (forceStop lt).state.CurrentRPS = 0 ∧
    (forceStop lt).state.TotalReqs = lt.state.TotalReqs ∧
    (forceStop lt).state.SuccessReqs = lt.state.SuccessReqs ∧
    (forceStop lt).state.ErrorReqs = lt.state.ErrorReqs ∧
    (forceStop lt).state.RPS = lt.state.RPS ∧
    (forceStop lt).state.Endpoint = lt.state.Endpoint ∧
    (forceStop lt).state.Profile = lt.state.Profile ∧
    (forceStop lt).state.StartTime = lt.state.StartTime ∧
    (forceStop lt).state.Endpoints = lt.state.Endpoints ∧
    (forceStop lt).state.Profiles = lt.state.Profiles := by
  simp [forceStop]

/-! ## Stop on an idle state (claim C11) -/

/-- C11: in every state in which no run is running, the stop operation is a
no-op: a well-formed stop request is answered "Not running" with status 200,
not with an error, and the state is returned as it was. -/
theorem stopHandler_idle (lt : LoadTester) (r : HttpRequest)
    (hm : r.Method = "POST") (hidle : lt.state.Running = false) :
    stopHandler lt r = (lt, httpOk "Not running") ∧
    (stopHandler lt r).2.status = 200 := by
  simp [stopHandler, hm, hidle, httpOk]

/-- Witness for C11: a stop request on the initial state. -/
theorem stopHandler_idle_witness :
    stopHandler initialLoadTester { Method := "POST", Body := none } =
      (initialLoadTester, httpOk "Not running") :=
  (stopHandler_idle initialLoadTester { Method := "POST", Body := none } rfl rfl).1

/-! ## The counter invariant (claim C3) -/

/-- C3: in every reachable state `TotalReqs = SuccessReqs + ErrorReqs`, and a
request completion either leaves the state as it was or adds one to `TotalReqs`
and one to exactly one of `SuccessReqs` (request succeeded) and `ErrorReqs`
(request failed). -/
theorem stats_invariant :
    (∀ lt : LoadTester, Reachable lt →
      lt.state.TotalReqs = lt.state.SuccessReqs + lt.state.ErrorReqs) ∧
    (∀ (lt : LoadTester) (failed : Bool),
      runLoadTest.requestDone lt failed = lt ∨
      ((runLoadTest.requestDone lt failed).state.TotalReqs = lt.state.TotalReqs + 1 ∧
       (runLoadTest.requestDone lt failed).state.SuccessReqs =
          lt.state.SuccessReqs + (if failed then 0 else 1) ∧
       (runLoadTest.requestDone lt failed).state.ErrorReqs =
          lt.state.ErrorReqs + (if failed then 1 else 0))) := by
  refine ⟨fun lt hr => reachable_stats lt hr, fun lt failed => ?_⟩
  rcases requestDone_cases lt failed with he | ⟨hf, he⟩ | ⟨hf, he⟩
  · exact Or.inl he
  · right; rw [he]; simp [hf]
  · right; rw [he]; simp [hf]

/-- Witness for C3: the reachable sample run, and a failed completion on it. -/
theorem stats_invariant_witness :
    busyTester.state.TotalReqs = busyTester.state.SuccessReqs + busyTester.state.ErrorReqs ∧
    (runLoadTest.requestDone busyTester true).state.ErrorReqs = 2 := by
  refine ⟨stats_invariant.1 busyTester busyTester_reachable, by decide⟩

/-! ## Binary64 rounding -/

theorem roundEven_cases (x : ℚ) : roundEven x = ⌊x⌋ ∧ x - ⌊x⌋ ≤ 1 / 2 ∨
    roundEven x = ⌊x⌋ + 1 ∧ 1 / 2 ≤ x - ⌊x⌋ := by
  unfold roundEven
  by_cases h1 : x - ⌊x⌋ < 1 / 2
  · left
    rw [if_pos h1]
    exact ⟨rfl, le_of_lt h1⟩
  · rw [if_neg h1]
    by_cases h2 : 1 / 2 < x - ⌊x⌋
    · right
      rw [if_pos h2]
      exact ⟨rfl, le_of_lt h2⟩
    · rw [if_neg h2]
      have h3 : x - ⌊x⌋ = 1 / 2 := le_antisymm (not_lt.mp h2) (not_lt.mp h1)
      by_cases h4 : ⌊x⌋ % 2 = 0
      · left
        rw [if_pos h4]
        exact ⟨rfl, le_of_eq h3⟩
      · right
        rw [if_neg h4]
        exact ⟨rfl, le_of_eq h3.symm⟩

theorem roundEven_le (x : ℚ) : (roundEven x : ℚ) ≤ x + 1 / 2 := by
  have hf := Int.floor_le x
  have hl := Int.lt_floor_add_one x
  rcases roundEven_cases x with ⟨h, _⟩ | ⟨h, h2⟩
  · rw [h]; linarith
  · rw [h]; push_cast; linarith

theorem roundEven_ge (x : ℚ) : x - 1 / 2 ≤ (roundEven x : ℚ) := by
  have hf := Int.floor_le x
  have hl := Int.lt_floor_add_one x
  rcases roundEven_cases x with ⟨h, h2⟩ | ⟨h, _⟩
  · rw [h]; linarith
  · rw [h]; push_cast; linarith

theorem roundEven_intCast (n : Int) : roundEven (n : ℚ) = n := by
  unfold roundEven
  simp

theorem roundEven_mono (x y : ℚ) (h : x ≤ y) : roundEven x ≤ roundEven y := by
  by_contra hc
  have hlt : roundEven y + 1 ≤ roundEven x := by omega
  have hq : ((roundEven y : ℚ) + 1) ≤ (roundEven x : ℚ) := by exact_mod_cast hlt
  have h1 := roundEven_le x
  have h2 := roundEven_ge y
  have hxy : x = y := by linarith
  subst hxy
  omega

theorem roundEven_nonneg (x : ℚ) (h : 0 ≤ x) : 0 ≤ roundEven x := by
  have := roundEven_mono 0 x h
  have h0 : roundEven (0 : ℚ) = 0 := by
    have := roundEven_intCast 0
    simpa using this
  omega

theorem two_zpow_pos (e : Int) : (0 : ℚ) < 2 ^ e := zpow_pos (by norm_num) e

theorem ulpExp_mono (q1 q2 : ℚ) (h0 : 0 < q1) (h : q1 ≤ q2) : ulpExp q1 ≤ ulpExp q2 := by
  unfold ulpExp
  have := Int.log_mono_right (b := 2) h0 h
  exact max_le_max (by omega) le_rfl

theorem ulpExp_ge (q : ℚ) : Int.log 2 q - 52 ≤ ulpExp q := le_max_left _ _

theorem scaled_lt (q : ℚ) : q / 2 ^ ulpExp q < 2 ^ (53 : ℕ) := by
  have h1 := Int.lt_zpow_succ_log_self (b := 2) (by norm_num) q
  have h2 : ((2 : ℕ) : ℚ) ^ (Int.log 2 q + 1) ≤ (2 : ℚ) ^ (ulpExp q + 53) := by
    have := ulpExp_ge q
    push_cast
    exact zpow_le_zpow_right₀ (by norm_num) (by omega)
  rw [div_lt_iff₀ (two_zpow_pos _)]
  have h3 : (2 : ℚ) ^ (ulpExp q + 53) = 2 ^ (53 : ℕ) * 2 ^ ulpExp q := by
    rw [zpow_add₀ (by norm_num), mul_comm]
    norm_cast
  linarith

theorem scaled_ge (q : ℚ) (h0 : 0 < q) (hn : ulpExp q = Int.log 2 q - 52) :
    (2 : ℚ) ^ (52 : ℕ) ≤ q / 2 ^ ulpExp q := by
  have h1 := Int.zpow_log_le_self (b := 2) (by norm_num) h0
  rw [le_div_iff₀ (two_zpow_pos _)]
  have h3 : (2 : ℚ) ^ (52 : ℕ) * 2 ^ ulpExp q = ((2 : ℕ) : ℚ) ^ Int.log 2 q := by
    rw [hn]
    push_cast
    have : (2 : ℚ) ^ (52 : ℕ) = (2 : ℚ) ^ (52 : ℤ) := by norm_cast
    rw [this, ← zpow_add₀ (by norm_num)]
    congr 1
    omega
  linarith

theorem roundPos_nonneg (q : ℚ) (h : 0 ≤ q) : 0 ≤ roundPos q := by
  unfold roundPos
  have h1 : 0 ≤ q / 2 ^ ulpExp q := div_nonneg h (le_of_lt (two_zpow_pos _))
  have h2 : (0 : ℚ) ≤ (roundEven (q / 2 ^ ulpExp q) : ℚ) := by
    exact_mod_cast roundEven_nonneg _ h1
  exact mul_nonneg h2 (le_of_lt (two_zpow_pos _))

theorem roundPos_zero : roundPos 0 = 0 := by
  unfold roundPos
  have := roundEven_intCast 0
  simp only [Int.cast_zero] at this
  simp [this]

theorem roundPos_le_add (q : ℚ) : roundPos q ≤ q + 2 ^ ulpExp q / 2 := by
  unfold roundPos
  have h := roundEven_le (q / 2 ^ ulpExp q)
  have hp := two_zpow_pos (ulpExp q)
  calc (roundEven (q / 2 ^ ulpExp q) : ℚ) * 2 ^ ulpExp q
      ≤ (q / 2 ^ ulpExp q + 1 / 2) * 2 ^ ulpExp q := mul_le_mul_of_nonneg_right h (le_of_lt hp)
    _ = q + 2 ^ ulpExp q / 2 := by field_simp; ring

theorem roundPos_mono (q1 q2 : ℚ) (h0 : 0 ≤ q1) (h : q1 ≤ q2) : roundPos q1 ≤ roundPos q2 := by
  rcases eq_or_lt_of_le h0 with h0 | h0
  · rw [← h0, roundPos_zero]
    exact roundPos_nonneg q2 (le_trans (le_of_eq h0) h)
  have he := ulpExp_mono q1 q2 h0 h
  rcases eq_or_lt_of_le he with he | he
  · unfold roundPos
    rw [he]
    have hp := two_zpow_pos (ulpExp q2)
    have hs : q1 / 2 ^ ulpExp q2 ≤ q2 / 2 ^ ulpExp q2 := div_le_div_of_nonneg_right h (le_of_lt hp)
    have hr : (roundEven (q1 / 2 ^ ulpExp q2) : ℚ) ≤ (roundEven (q2 / 2 ^ ulpExp q2) : ℚ) := by
      exact_mod_cast roundEven_mono _ _ hs
    exact mul_le_mul_of_nonneg_right hr (le_of_lt hp)
  · have hn : ulpExp q2 = Int.log 2 q2 - 52 := by
      unfold ulpExp at he ⊢
      have h1 : (-1074 : Int) ≤ max (Int.log 2 q1 - 52) (-1074) := le_max_right _ _
      rcases max_choice (Int.log 2 q2 - 52) (-1074) with hm | hm
      · exact hm
      · rw [hm] at he
        omega
    have hq2 : 0 < q2 := lt_of_lt_of_le h0 h
    have hlo : ((2 : ℚ) ^ (52 : ℕ)) ≤ (roundEven (q2 / 2 ^ ulpExp q2) : ℚ) := by
      have := roundEven_mono _ _ (scaled_ge q2 hq2 hn)
      have hc : roundEven ((2 : ℚ) ^ (52 : ℕ)) = 2 ^ (52 : ℕ) := by
        have := roundEven_intCast (2 ^ (52 : ℕ))
        simpa using this
      rw [hc] at this
      exact_mod_cast this
    have hhi : (roundEven (q1 / 2 ^ ulpExp q1) : ℚ) ≤ (2 : ℚ) ^ (53 : ℕ) := by
      have := roundEven_mono _ _ (le_of_lt (scaled_lt q1))
      have hc : roundEven ((2 : ℚ) ^ (53 : ℕ)) = 2 ^ (53 : ℕ) := by
        have := roundEven_intCast (2 ^ (53 : ℕ))
        simpa using this
      rw [hc] at this
      exact_mod_cast this
    unfold roundPos
    have hp1 := two_zpow_pos (ulpExp q1)
    have hp2 := two_zpow_pos (ulpExp q2)
    have hstep : (2 : ℚ) ^ (53 : ℕ) * 2 ^ ulpExp q1 ≤ 2 ^ (52 : ℕ) * 2 ^ ulpExp q2 := by
      have e1 : (2 : ℚ) ^ (53 : ℕ) * 2 ^ ulpExp q1 = 2 ^ (ulpExp q1 + 53) := by
        rw [zpow_add₀ (by norm_num), mul_comm]
        norm_cast
      have e2 : (2 : ℚ) ^ (52 : ℕ) * 2 ^ ulpExp q2 = 2 ^ (ulpExp q2 + 52) := by
        rw [zpow_add₀ (by norm_num), mul_comm]
        norm_cast
      rw [e1, e2]
      exact zpow_le_zpow_right₀ (by norm_num) (by omega)
    calc (roundEven (q1 / 2 ^ ulpExp q1) : ℚ) * 2 ^ ulpExp q1
        ≤ 2 ^ (53 : ℕ) * 2 ^ ulpExp q1 := mul_le_mul_of_nonneg_right hhi (le_of_lt hp1)
      _ ≤ 2 ^ (52 : ℕ) * 2 ^ ulpExp q2 := hstep
      _ ≤ (roundEven (q2 / 2 ^ ulpExp q2) : ℚ) * 2 ^ ulpExp q2 :=
          mul_le_mul_of_nonneg_right hlo (le_of_lt hp2)

theorem ulpExp_le_of_lt (q : ℚ) (k : Int) (h0 : 0 < q) (hk : -1074 ≤ k)
    (h : q < 2 ^ (k + 53)) : ulpExp q ≤ k := by
  unfold ulpExp
  have hl : Int.log 2 q < k + 53 := by
    rw [← Int.lt_zpow_iff_log_lt (by norm_num) h0]
    exact_mod_cast h
  exact max_le (by omega) hk

/-- A natural multiple `n * 2^k` with `n < 2^53` and `k >= -1074` is a float64. -/
theorem roundPos_exact (n : ℕ) (k : Int) (hn : n < 2 ^ 53) (hk : -1074 ≤ k) :
    roundPos ((n : ℚ) * 2 ^ k) = (n : ℚ) * 2 ^ k := by
  rcases Nat.eq_zero_or_pos n with h0 | h0
  · subst h0
    simp [roundPos_zero]
  have hpk := two_zpow_pos k
  have hq : (0 : ℚ) < (n : ℚ) * 2 ^ k := mul_pos (by exact_mod_cast h0) hpk
  have hlt : (n : ℚ) * 2 ^ k < 2 ^ (k + 53) := by
    rw [zpow_add₀ (by norm_num), mul_comm ((2 : ℚ) ^ k)]
    have : (n : ℚ) < 2 ^ (53 : ℤ) := by exact_mod_cast hn
    exact mul_lt_mul_of_pos_right this hpk
  have he := ulpExp_le_of_lt _ k hq hk hlt
  obtain ⟨j, hj⟩ : ∃ j : ℕ, k = ulpExp ((n : ℚ) * 2 ^ k) + j :=
    ⟨(k - ulpExp ((n : ℚ) * 2 ^ k)).toNat, by omega⟩
  unfold roundPos
  generalize ulpExp ((n : ℚ) * 2 ^ k) = e at hj ⊢
  have hpe := two_zpow_pos e
  have hdiv : (n : ℚ) * 2 ^ k / 2 ^ e = ((n * 2 ^ j : ℕ) : Int) := by
    rw [hj, zpow_add₀ (by norm_num), zpow_natCast]
    push_cast
    field_simp
    ring
  rw [hdiv, roundEven_intCast, ← hdiv]
  field_simp

theorem f64_of_nonneg (q : ℚ) (h : 0 ≤ q) : f64 q = roundPos q := by
  simp [f64, h]

theorem f64_zero : f64 0 = 0 := by
  rw [f64_of_nonneg 0 le_rfl, roundPos_zero]

theorem f64_neg (q : ℚ) : f64 (-q) = - f64 q := by
  unfold f64
  rcases lt_trichotomy q 0 with h | h | h
  · have h1 : 0 ≤ -q := by linarith
    have h2 : ¬ 0 ≤ q := by linarith
    simp [h1, h2]
  · subst h
    simp [roundPos_zero]
  · have h1 : ¬ 0 ≤ -q := by linarith
    have h2 : 0 ≤ q := by linarith
    simp [h1, h2]

theorem f64_nonneg (q : ℚ) (h : 0 ≤ q) : 0 ≤ f64 q := by
  rw [f64_of_nonneg q h]
  exact roundPos_nonneg q h

theorem f64_mono (q1 q2 : ℚ) (h : q1 ≤ q2) : f64 q1 ≤ f64 q2 := by
  by_cases h1 : 0 ≤ q1
  · rw [f64_of_nonneg q1 h1, f64_of_nonneg q2 (le_trans h1 h)]
    exact roundPos_mono q1 q2 h1 h
  · have h1n : 0 ≤ -q1 := by linarith
    by_cases h2 : 0 ≤ q2
    · have := f64_nonneg (-q1) h1n
      rw [f64_neg] at this
      have := f64_nonneg q2 h2
      linarith
    · have h2n : 0 ≤ -q2 := by linarith
      have := roundPos_mono (-q2) (-q1) h2n (by linarith)
      rw [← f64_of_nonneg _ h2n, ← f64_of_nonneg _ h1n, f64_neg, f64_neg] at this
      linarith

/-- Dyadic rationals `n * 2^k` with `n < 2^53` and `k >= -1074` are float64 values. -/
theorem f64_dyadic (n : ℕ) (k : Int) (hn : n < 2 ^ 53) (hk : -1074 ≤ k) :
    f64 ((n : ℚ) * 2 ^ k) = (n : ℚ) * 2 ^ k := by
  rw [f64_of_nonneg _ (mul_nonneg (by positivity) (le_of_lt (two_zpow_pos k)))]
  exact roundPos_exact n k hn hk

theorem f64_natCast (n : ℕ) (hn : n < 2 ^ 53) : f64 (n : ℚ) = n := by
  have := f64_dyadic n 0 hn (by norm_num)
  simpa using this

theorem f64_intCast (n : Int) (h1 : -(2 ^ 53) < n) (h2 : n < 2 ^ 53) : f64 (n : ℚ) = n := by
  rcases Int.le_total 0 n with h | h
  · obtain ⟨m, rfl⟩ := Int.eq_ofNat_of_zero_le h
    have hm : m < 2 ^ 53 := by exact_mod_cast h2
    simpa using f64_natCast m hm
  · obtain ⟨m, hm⟩ := Int.eq_ofNat_of_zero_le (show 0 ≤ -n by omega)
    have hm2 : m < 2 ^ 53 := by
      have : (m : Int) < 2 ^ 53 := by omega
      exact_mod_cast this
    have hn : (n : ℚ) = -((m : ℕ) : ℚ) := by
      have : n = -(m : Int) := by omega
      rw [this]
      push_cast
      ring
    rw [hn, f64_neg, f64_natCast m hm2]

theorem f64_le_of_le_dyadic (q : ℚ) (n : ℕ) (k : Int) (hn : n < 2 ^ 53) (hk : -1074 ≤ k)
    (h : q ≤ (n : ℚ) * 2 ^ k) : f64 q ≤ (n : ℚ) * 2 ^ k := by
  have := f64_mono _ _ h
  rwa [f64_dyadic n k hn hk] at this

/-- Dividing a non-negative float64 by 30 never rounds up to an integer:
below an integer bound `n` the rounded quotient stays below `n`. -/
theorem f64_div30_lt (x : ℚ) (n : Int) (hx0 : 0 ≤ x) (hx : f64 x = x) (hn1 : 1 ≤ n)
    (hn : n ≤ 2 ^ 48) (hlt : x / 30 < n) : f64 (x / 30) < n := by
  by_contra hge
  have hge : (n : ℚ) ≤ f64 (x / 30) := not_lt.mp hge
  have hn1q : (1 : ℚ) ≤ (n : ℚ) := by exact_mod_cast hn1
  have hnq : (n : ℚ) ≤ 2 ^ (48 : ℕ) := by exact_mod_cast hn
  -- the quotient is at least one half
  have hy : (1 : ℚ) / 2 ≤ x / 30 := by
    by_contra hc
    have hc : x / 30 ≤ ((1 : ℕ) : ℚ) * 2 ^ (-1 : Int) := by
      have := le_of_lt (not_le.mp hc)
      norm_num
      linarith
    have := f64_le_of_le_dyadic _ 1 (-1) (by norm_num) (by norm_num) hc
    norm_num at this
    linarith
  have hypos : (0 : ℚ) < x / 30 := by linarith
  have hxpos : (0 : ℚ) < x := by linarith
  -- the unit in the last place of the quotient
  have hlogy : (-1 : Int) ≤ Int.log 2 (x / 30) := by
    rw [← Int.zpow_le_iff_le_log (by norm_num) hypos]
    norm_num
    linarith
  have hey : ulpExp (x / 30) = Int.log 2 (x / 30) - 52 := by
    unfold ulpExp
    exact max_eq_left (by omega)
  have hround : f64 (x / 30) ≤ x / 30 + 2 ^ ulpExp (x / 30) / 2 := by
    rw [f64_of_nonneg _ (le_of_lt hypos)]
    exact roundPos_le_add _
  -- the unit in the last place of the dividend
  have hlogx : Int.log 2 (x / 30) + 4 ≤ Int.log 2 x := by
    rw [← Int.zpow_le_iff_le_log (by norm_num) hxpos]
    have h1 := Int.zpow_log_le_self (b := 2) (by norm_num) hypos
    push_cast at h1 ⊢
    rw [zpow_add₀ (by norm_num)]
    norm_num
    linarith
  have hj1 : ulpExp (x / 30) + 4 ≤ ulpExp x := by
    have := ulpExp_ge x
    omega
  have hj0 : ulpExp x ≤ 0 := by
    apply ulpExp_le_of_lt x 0 hxpos (by norm_num)
    norm_num
    norm_num at hnq
    linarith
  -- the dividend is a multiple of its unit in the last place
  have hxN : x = (roundEven (x / 2 ^ ulpExp x) : ℚ) * 2 ^ ulpExp x := by
    have := hx
    rw [f64_of_nonneg x hx0] at this
    exact this.symm
  obtain ⟨J, hJ⟩ : ∃ J : ℕ, ulpExp x = -(J : Int) := ⟨(-ulpExp x).toNat, by omega⟩
  have hpJ : (0 : ℚ) < 2 ^ J := by positivity
  have hzJ : (2 : ℚ) ^ ulpExp x = 1 / 2 ^ J := by
    rw [hJ, zpow_neg, zpow_natCast]
    field_simp
  generalize roundEven (x / 2 ^ ulpExp x) = N at hxN
  have hgap : (2 : ℚ) ^ ulpExp x ≤ 30 * n - x := by
    have hint : (0 : ℚ) < ((30 * n * 2 ^ J - N : Int) : ℚ) := by
      push_cast
      have : x * 2 ^ J = N := by
        rw [hxN, hzJ]
        field_simp
      have h30 : x < 30 * n := by linarith
      have := mul_lt_mul_of_pos_right h30 hpJ
      linarith
    have hint2 : (1 : ℚ) ≤ ((30 * n * 2 ^ J - N : Int) : ℚ) := by
      have : (0 : Int) < 30 * n * 2 ^ J - N := by exact_mod_cast hint
      have : (1 : Int) ≤ 30 * n * 2 ^ J - N := by omega
      exact_mod_cast this
    push_cast at hint2
    have hxJ : x * 2 ^ J = N := by
      rw [hxN, hzJ]
      field_simp
    rw [hzJ, div_le_iff₀ hpJ]
    have : (30 * (n : ℚ) - x) * 2 ^ J = 30 * n * 2 ^ J - N := by
      rw [← hxJ]
      ring
    linarith
  have h16 : (16 : ℚ) * 2 ^ ulpExp (x / 30) ≤ 2 ^ ulpExp x := by
    have : (16 : ℚ) * 2 ^ ulpExp (x / 30) = 2 ^ (ulpExp (x / 30) + 4) := by
      rw [zpow_add₀ (by norm_num)]
      norm_num
      ring
    rw [this]
    exact zpow_le_zpow_right₀ (by norm_num) hj1
  have hpe := two_zpow_pos (ulpExp (x / 30))
  linarith

theorem floor_f64_div30 (x : ℚ) (hx0 : 0 ≤ x) (hx : f64 x = x) (hb : x < 2 ^ 50) :
    ⌊f64 (x / 30)⌋ = ⌊x / 30⌋ := by
  have hq0 : (0 : ℚ) ≤ x / 30 := by positivity
  have hf0 : 0 ≤ ⌊x / 30⌋ := Int.floor_nonneg.mpr hq0
  have hfle : (⌊x / 30⌋ : ℚ) ≤ x / 30 := Int.floor_le _
  have hflt : x / 30 < (⌊x / 30⌋ : ℚ) + 1 := Int.lt_floor_add_one _
  have hfb : ⌊x / 30⌋ < 2 ^ 48 := by
    have : (⌊x / 30⌋ : ℚ) < 2 ^ 48 := by
      norm_num at hb ⊢
      linarith
    exact_mod_cast this
  rw [Int.floor_eq_iff]
  constructor
  · have := f64_mono _ _ hfle
    rwa [f64_intCast _ (by omega) (by omega)] at this
  · have := f64_div30_lt x (⌊x / 30⌋ + 1) hx0 hx (by omega) (by omega) (by push_cast; exact hflt)
    push_cast at this
    exact this

theorem wrap64_of_range (x : Int) (h1 : -9223372036854775808 ≤ x)
    (h2 : x < 9223372036854775808) : wrap64 x = x := by
  unfold wrap64
  omega

theorem roundEven_scaled_le (q : ℚ) : roundEven (q / 2 ^ ulpExp q) ≤ 2 ^ 53 := by
  have := roundEven_mono _ _ (le_of_lt (scaled_lt q))
  have hc : roundEven ((2 : ℚ) ^ (53 : ℕ)) = 2 ^ (53 : ℕ) := by
    have := roundEven_intCast (2 ^ (53 : ℕ))
    simpa using this
  rw [hc] at this
  exact_mod_cast this

theorem ulpExp_min (q : ℚ) : -1074 ≤ ulpExp q := le_max_right _ _

/-- The result of a rounding is a float64: rounding it again changes nothing. -/
theorem roundPos_idem (q : ℚ) (h : 0 ≤ q) : roundPos (roundPos q) = roundPos q := by
  have hN0 : 0 ≤ roundEven (q / 2 ^ ulpExp q) :=
    roundEven_nonneg _ (div_nonneg h (le_of_lt (two_zpow_pos _)))
  have hN1 := roundEven_scaled_le q
  have hk := ulpExp_min q
  obtain ⟨m, hm⟩ := Int.eq_ofNat_of_zero_le hN0
  have hdef : roundPos q = (m : ℚ) * 2 ^ ulpExp q := by
    unfold roundPos
    rw [hm]
    push_cast
    rfl
  rw [hdef]
  rcases Nat.lt_or_ge m (2 ^ 53) with hlt | hge
  · exact roundPos_exact m _ hlt hk
  · have hm53 : m = 2 ^ 53 := by
      have : (m : Int) ≤ 2 ^ 53 := by rw [← hm]; exact hN1
      have : m ≤ 2 ^ 53 := by exact_mod_cast this
      omega
    have he : ((m : ℕ) : ℚ) * 2 ^ ulpExp q = ((1 : ℕ) : ℚ) * 2 ^ (ulpExp q + 53) := by
      rw [hm53, zpow_add₀ (by norm_num)]
      push_cast
      norm_cast
      ring
    rw [he]
    exact roundPos_exact 1 _ (by norm_num) (by omega)

theorem f64_idem (q : ℚ) : f64 (f64 q) = f64 q := by
  by_cases h : 0 ≤ q
  · rw [f64_of_nonneg q h, f64_of_nonneg _ (roundPos_nonneg q h)]
    exact roundPos_idem q h
  · have hn : 0 ≤ -q := by linarith
    have h1 : f64 q = - roundPos (-q) := by simp [f64, h]
    rw [h1, f64_neg, f64_of_nonneg _ (roundPos_nonneg _ hn), roundPos_idem _ hn]

/-- Evaluation of a rounding from the binade of the argument and the rounded
significand. -/
theorem f64_eval (q : ℚ) (e N : Int) (hlo : (2 : ℚ) ^ (e + 52) ≤ q)
    (hhi : q < (2 : ℚ) ^ (e + 53)) (he : -1074 ≤ e) (hN : roundEven (q / 2 ^ e) = N) :
    f64 q = (N : ℚ) * 2 ^ e := by
  have hq : 0 < q := lt_of_lt_of_le (two_zpow_pos _) hlo
  have hlog : Int.log 2 q = e + 52 := by
    apply le_antisymm
    · have : Int.log 2 q < e + 53 := by
        rw [← Int.lt_zpow_iff_log_lt (by norm_num) hq]
        exact_mod_cast hhi
      omega
    · rw [← Int.zpow_le_iff_le_log (by norm_num) hq]
      exact_mod_cast hlo
  have hu : ulpExp q = e := by
    unfold ulpExp
    rw [hlog]
    have h52 : e + 52 - 52 = e := by omega
    rw [h52]
    exact max_eq_left he
  rw [f64_of_nonneg q (le_of_lt hq)]
  unfold roundPos
  rw [hu, hN]

/-! ## Elapsed time and conversions -/

theorem Seconds_unfold (d : Int) (h0 : 0 ≤ d) (h1 : d < 9223372036854775808) :
    Seconds d = f64 (((d / 1000000000 : Int) : ℚ) +
      f64 (((d % 1000000000 : Int) : ℚ) / 1000000000)) := by
  have ht : d.tdiv Second = d / 1000000000 := Int.tdiv_eq_ediv h0 (by unfold Second; omega)
  have hm : d.tmod Second = d % 1000000000 := Int.tmod_eq_emod h0 (by unfold Second; omega)
  unfold Seconds
  rw [ht, hm, f64_intCast (d / 1000000000) (by omega) (by omega),
    f64_intCast (d % 1000000000) (by omega) (by omega)]

theorem frac_bounds (n : Int) (h0 : 0 ≤ n) (h1 : n < 1000000000) :
    0 ≤ f64 ((n : ℚ) / 1000000000) ∧ f64 ((n : ℚ) / 1000000000) ≤ 1 := by
  have hq0 : (0 : ℚ) ≤ (n : ℚ) := by exact_mod_cast h0
  have hq1 : (n : ℚ) < 1000000000 := by exact_mod_cast h1
  refine ⟨f64_nonneg _ (by positivity), ?_⟩
  have hle : (n : ℚ) / 1000000000 ≤ ((1 : ℕ) : ℚ) * 2 ^ (0 : Int) := by
    rw [div_le_iff₀ (by norm_num)]
    norm_num
    linarith
  have := f64_le_of_le_dyadic _ 1 0 (by norm_num) (by norm_num) hle
  simpa using this

theorem Seconds_nonneg (d : Int) (h : 0 ≤ d) : 0 ≤ Seconds d := by
  unfold Seconds
  have h1 : 0 ≤ d.tdiv Second := Int.tdiv_nonneg h (by unfold Second; omega)
  have h2 : 0 ≤ d.tmod Second := Int.tmod_nonneg _ h
  have q1 : (0 : ℚ) ≤ ((d.tdiv Second : Int) : ℚ) := by exact_mod_cast h1
  have q2 : (0 : ℚ) ≤ ((d.tmod Second : Int) : ℚ) := by exact_mod_cast h2
  have f1 := f64_nonneg _ q1
  have f2 := f64_nonneg _ q2
  have f3 : 0 ≤ f64 (f64 ((d.tmod Second : Int) : ℚ) / 1000000000) :=
    f64_nonneg _ (by positivity)
  exact f64_nonneg _ (by linarith)

theorem Seconds_mono (d1 d2 : Int) (h0 : 0 ≤ d1) (h : d1 ≤ d2)
    (h2 : d2 < 9223372036854775808) : Seconds d1 ≤ Seconds d2 := by
  rw [Seconds_unfold d1 h0 (by omega), Seconds_unfold d2 (by omega) h2]
  apply f64_mono
  have b1 := frac_bounds (d1 % 1000000000) (by omega) (by omega)
  have b2 := frac_bounds (d2 % 1000000000) (by omega) (by omega)
  rcases lt_or_ge (d1 / 1000000000) (d2 / 1000000000) with hlt | hge
  · have : ((d1 / 1000000000 : Int) : ℚ) + 1 ≤ ((d2 / 1000000000 : Int) : ℚ) := by
      exact_mod_cast hlt
    linarith
  · have hs : d1 / 1000000000 = d2 / 1000000000 := by omega
    have hn : d1 % 1000000000 ≤ d2 % 1000000000 := by omega
    have hq : ((d1 % 1000000000 : Int) : ℚ) / 1000000000 ≤
        ((d2 % 1000000000 : Int) : ℚ) / 1000000000 := by
      have : ((d1 % 1000000000 : Int) : ℚ) ≤ ((d2 % 1000000000 : Int) : ℚ) := by
        exact_mod_cast hn
      linarith
    have := f64_mono _ _ hq
    rw [hs]
    linarith

theorem Seconds_mul_Second (n : Int) (h0 : 0 ≤ n) (h1 : n < 9007199254740992) :
    Seconds (n * Second) = n := by
  have ht : (n * Second).tdiv Second = n := by
    rw [Int.tdiv_eq_ediv (by unfold Second; omega) (by unfold Second; omega)]
    unfold Second
    omega
  have hm : (n * Second).tmod Second = 0 := by
    rw [Int.tmod_eq_emod (by unfold Second; omega) (by unfold Second; omega)]
    unfold Second
    omega
  unfold Seconds
  rw [ht, hm]
  simp only [Int.cast_zero, f64_zero, zero_div, add_zero]
  rw [f64_intCast n (by omega) (by omega), f64_intCast n (by omega) (by omega)]

theorem Seconds_idem (d : Int) : f64 (Seconds d) = Seconds d := by
  unfold Seconds
  exact f64_idem _

theorem Seconds_le (d : Int) (h0 : 0 ≤ d) (h1 : d < 9223372036854775808) :
    Seconds d ≤ 17179869184 := by
  rw [Seconds_unfold d h0 h1]
  have b := frac_bounds (d % 1000000000) (by omega) (by omega)
  have hs : ((d / 1000000000 : Int) : ℚ) ≤ 9223372036 := by
    have : d / 1000000000 ≤ 9223372036 := by omega
    exact_mod_cast this
  have hle : ((d / 1000000000 : Int) : ℚ) + f64 (((d % 1000000000 : Int) : ℚ) / 1000000000) ≤
      ((17179869184 : ℕ) : ℚ) * 2 ^ (0 : Int) := by
    norm_num
    linarith
  have := f64_le_of_le_dyadic _ 17179869184 0 (by norm_num) (by norm_num) hle
  simpa using this

theorem toInt_of_nonneg (x : ℚ) (h : 0 ≤ x) : toInt x = ⌊x⌋ := by
  simp [toInt, h]

theorem elapsed_eq (lt : LoadTester) (d : Int) :
    Since (lt.state.StartTime + d) lt.state.StartTime = d := by
  unfold Since
  omega

/-! ## Small float64 facts -/

theorem Seconds_zero : Seconds 0 = 0 := by
  have := Seconds_mul_Second 0 (by norm_num) (by norm_num)
  simpa using this

theorem f64_le_int (q : ℚ) (n : Int) (h1 : -(2 ^ 53) < n) (h2 : n < 2 ^ 53)
    (h : q ≤ (n : ℚ)) : f64 q ≤ (n : ℚ) := by
  have := f64_mono _ _ h
  rwa [f64_intCast n h1 h2] at this

theorem f64_ge_int (q : ℚ) (n : Int) (h1 : -(2 ^ 53) < n) (h2 : n < 2 ^ 53)
    (h : (n : ℚ) ≤ q) : (n : ℚ) ≤ f64 q := by
  have := f64_mono _ _ h
  rwa [f64_intCast n h1 h2] at this

theorem f64_half : f64 (1 / 2) = 1 / 2 := by
  have := f64_dyadic 1 (-1) (by norm_num) (by norm_num)
  norm_num at this
  exact this

theorem f64_tenth_le_half : f64 (1 / 10) ≤ 1 / 2 := by
  have := f64_mono (1 / 10) (1 / 2) (by norm_num)
  rwa [f64_half] at this

/-! ## The stress profile (claim C5) -/

/-- From rate 2 upward the stress profile returns a value of
`[maxRPS/3, maxRPS]`, whatever the two draws. -/
theorem calculateRPS_stress_range (lt : LoadTester) (env : Env) (maxRPS : Int)
    (h : 2 ≤ maxRPS) (hmax : maxRPS < 9223372036854775808) :
    ∃ v : Int, calculateRPS lt env "stress" maxRPS = .ok v ∧ maxRPS / 3 ≤ v ∧ v ≤ maxRPS := by
  have h3 : maxRPS.tdiv 3 = maxRPS / 3 := Int.tdiv_eq_ediv (by omega) (by omega)
  have h2 : maxRPS.tdiv 2 = maxRPS / 2 := Int.tdiv_eq_ediv (by omega) (by omega)
  by_cases hf : env.randFloat64 < f64 (1 / 10)
  · refine ⟨maxRPS, ?_, by omega, le_refl _⟩
    simp only [calculateRPS, if_pos hf]
  · have hpos : ¬ (maxRPS / 2 ≤ 0) := by omega
    have hr0 : 0 ≤ (env.randRaw : Int) % (maxRPS / 2) := Int.emod_nonneg _ (by omega)
    have hr1 : (env.randRaw : Int) % (maxRPS / 2) < maxRPS / 2 :=
      Int.emod_lt_of_pos _ (by omega)
    have hw : wrap64 (maxRPS / 3 + (env.randRaw : Int) % (maxRPS / 2)) =
        maxRPS / 3 + (env.randRaw : Int) % (maxRPS / 2) :=
      wrap64_of_range _ (by omega) (by omega)
    have hle : ¬ (maxRPS < maxRPS / 3 + (env.randRaw : Int) % (maxRPS / 2)) := by omega
    refine ⟨maxRPS / 3 + (env.randRaw : Int) % (maxRPS / 2), ?_, by omega, by omega⟩
    simp only [calculateRPS, if_neg hf, randIntn, h2, h3, if_neg hpos, hw]
    simp [hle]

/-- At rate 1 the stress profile panics in `rand.Intn(0)` whenever the first
draw is not below `0.1`. -/
theorem calculateRPS_stress_one (lt : LoadTester) (env : Env)
    (hf : ¬ env.randFloat64 < f64 (1 / 10)) :
    calculateRPS lt env "stress" 1 = .error "invalid argument to Intn" := by
  have h2 : Int.tdiv 1 2 = 0 := by decide
  simp only [calculateRPS, if_neg hf, h2]
  simp [randIntn]

/-- C5 (the code fails the claim): the start request `stressRequest` at 1 RPS is
accepted from the initial state, `runLoadTest` starts with the locals read from
that state, and `calculateRPS` for the stress profile does not return: with the
first draw `1/2` it panics in `rand.Intn(maxRPS/2) = rand.Intn(0)`, and so does
the controller firing that calls it. -/
theorem calculateRPS_stress_panics :
    (startHandler initialLoadTester stressRequest 0).1.state.RPS = 1 ∧
    (startHandler initialLoadTester stressRequest 0).1.state.Profile = "stress" ∧
    runLoadTest.init (startHandler initialLoadTester stressRequest 0).1 =
      .ok { currentRPS := 1, profile := "stress", maxRPS := 1, tickPeriod := 1000000000 } ∧
    calculateRPS (startHandler initialLoadTester stressRequest 0).1
      (sampleEnv 1000000000 0) "stress" 1 = .error "invalid argument to Intn" ∧
    runLoadTest.profileTick (startHandler initialLoadTester stressRequest 0).1
      { currentRPS := 1, profile := "stress", maxRPS := 1, tickPeriod := 1000000000 }
      (sampleEnv 1000000000 0) = .error "invalid argument to Intn" := by
  have hf : ¬ (sampleEnv 1000000000 0).randFloat64 < f64 (1 / 10) := by
    have := f64_tenth_le_half
    have hd : (sampleEnv 1000000000 0).randFloat64 = 1 / 2 := rfl
    rw [hd]
    exact not_lt.mpr this
  have hc := calculateRPS_stress_one (startHandler initialLoadTester stressRequest 0).1
    (sampleEnv 1000000000 0) hf
  have hrun : (startHandler initialLoadTester stressRequest 0).1.isRunning = 1 := by decide
  refine ⟨by decide, by decide, by rfl, hc, ?_⟩
  simp only [runLoadTest.profileTick, runLoadTest.profileDecide, hrun, hc]
  simp

/-! ## The wave profile (claim C6) -/

theorem wave_at_zero (lt : LoadTester) (env : Env)
    (he : Seconds (Since env.now lt.state.StartTime) = 0) (hsin : env.sin 0 = 0) :
    calculateRPS lt env "wave" 100 = .ok 50 := by
  have h100 : f64 (100 : ℚ) = 100 := by
    simpa using f64_natCast 100 (by norm_num)
  have h50 : f64 (50 : ℚ) = 50 := by
    simpa using f64_natCast 50 (by norm_num)
  have e1 : f64 (100 : ℚ) / 2 = 50 := by rw [h100]; norm_num
  simp only [calculateRPS, he, Int.cast_ofNat, e1, h50, mul_zero, f64_zero, zero_div, hsin,
    add_zero]
  norm_num [toInt]

/-- C6 (amended): for the wave profile, `calculateRPS` at elapsed time 0 with
`maxRPS = 100` returns 50, the baseline `maxRPS / 2` (given `math.Sin(0) = 0`). -/
theorem calculateRPS_wave_zero (lt : LoadTester) (env : Env)
    (hsin : env.sin 0 = 0) (hnow : env.now = lt.state.StartTime) :
    calculateRPS lt env "wave" 100 = .ok 50 := by
  have he : Seconds (Since env.now lt.state.StartTime) = 0 := by
    rw [hnow]
    simp [Since, Seconds_zero]
  exact wave_at_zero lt env he hsin

/-- Witness for C6 (amended): the initial state read at its own start time. -/
theorem calculateRPS_wave_zero_witness :
    calculateRPS initialLoadTester (sampleEnv 0 0) "wave" 100 = .ok 50 :=
  calculateRPS_wave_zero initialLoadTester (sampleEnv 0 0) (by norm_num [sampleEnv]) rfl

/-- Counterexample to C6 as stated: at elapsed time 0 with `maxRPS = 100` the
wave profile returns 50, not 100. -/
theorem calculateRPS_wave_zero_counterexample :
    (sampleEnv 0 0).now = initialLoadTester.state.StartTime ∧
    (sampleEnv 0 0).sin 0 = 0 ∧
    calculateRPS initialLoadTester (sampleEnv 0 0) "wave" 100 = .ok 50 ∧
    calculateRPS initialLoadTester (sampleEnv 0 0) "wave" 100 ≠ .ok 100 := by
  have he : Seconds (Since (sampleEnv 0 0).now initialLoadTester.state.StartTime) = 0 := by
    simp [Since, sampleEnv, initialLoadTester, Seconds_zero]
  have hv : calculateRPS initialLoadTester (sampleEnv 0 0) "wave" 100 = .ok 50 :=
    wave_at_zero initialLoadTester (sampleEnv 0 0) he (by norm_num [sampleEnv])
  refine ⟨rfl, by norm_num [sampleEnv], hv, ?_⟩
  rw [hv]
  intro h
  injection h with h
  omega

/-! ## The spike, constant and unknown profiles (claims C12, C13) -/

theorem Seconds_four_and_half : Seconds 4500000000 = 9 / 2 := by
  rw [Seconds_unfold 4500000000 (by norm_num) (by norm_num)]
  have h1 : ((4500000000 % 1000000000 : Int) : ℚ) / 1000000000 = 1 / 2 := by norm_num
  have h2 : ((4500000000 / 1000000000 : Int) : ℚ) + 1 / 2 = ((9 : ℕ) : ℚ) * 2 ^ (-1 : Int) := by
    norm_num
  rw [h1, f64_half, h2, f64_dyadic 9 (-1) (by norm_num) (by norm_num)]
  norm_num

theorem calculateRPS_spike_formula (lt : LoadTester) (env : Env) (maxRPS d : Int) :
    calculateRPS lt { env with now := lt.state.StartTime + d } "spike" maxRPS =
      .ok (if Seconds d < 5 then 1 else maxRPS) := by
  simp only [calculateRPS, elapsed_eq]
  split <;> rfl

theorem calculateRPS_default (lt : LoadTester) (env : Env) (profile : String) (maxRPS : Int)
    (h1 : profile ≠ "constant") (h2 : profile ≠ "ramp_up") (h3 : profile ≠ "spike")
    (h4 : profile ≠ "wave") (h5 : profile ≠ "step") (h6 : profile ≠ "stress") :
    calculateRPS lt env profile maxRPS = .ok maxRPS := by
  unfold calculateRPS
  simp only []

/-- C12: for every `maxRPS` and every elapsed time `t >= 0` (`d` nanoseconds,
`t = Seconds d`), the spike profile returns 1 when `t < 5` and `maxRPS` when
`t >= 5`; for `maxRPS = 50` that is 1 at `t = 4` and 50 at `t = 5`. -/
theorem calculateRPS_spike :
    (∀ (lt : LoadTester) (env : Env) (maxRPS d : Int), 0 ≤ d →
      (Seconds d < 5 →
        calculateRPS lt { env with now := lt.state.StartTime + d } "spike" maxRPS = .ok 1) ∧
      (5 ≤ Seconds d →
        calculateRPS lt { env with now := lt.state.StartTime + d } "spike" maxRPS
          = .ok maxRPS)) ∧
    (∀ (lt : LoadTester) (env : Env),
      calculateRPS lt { env with now := lt.state.StartTime + 4 * Second } "spike" 50 = .ok 1 ∧
      calculateRPS lt { env with now := lt.state.StartTime + 5 * Second } "spike" 50
        = .ok 50) := by
  refine ⟨fun lt env maxRPS d _ => ⟨fun h => ?_, fun h => ?_⟩, fun lt env => ⟨?_, ?_⟩⟩
  · rw [calculateRPS_spike_formula, if_pos h]
  · rw [calculateRPS_spike_formula, if_neg (not_lt.mpr h)]
  · rw [calculateRPS_spike_formula, Seconds_mul_Second 4 (by norm_num) (by norm_num)]
    norm_num
  · rw [calculateRPS_spike_formula, Seconds_mul_Second 5 (by norm_num) (by norm_num)]
    norm_num

/-- Witness for C12: `maxRPS = 50` at 4.5 seconds gives 1. -/
theorem calculateRPS_spike_witness :
    calculateRPS initialLoadTester
      { sampleEnv 0 0 with now := initialLoadTester.state.StartTime + 4500000000 } "spike" 50
      = .ok 1 :=
  (calculateRPS_spike.1 initialLoadTester (sampleEnv 0 0) 50 4500000000 (by norm_num)).1
    (by rw [Seconds_four_and_half]; norm_num)

/-- C13: for every `maxRPS` and at every time, `calculateRPS` returns exactly
`maxRPS` for the profile "constant" and for every profile string other than the
six known kinds. -/
theorem calculateRPS_constant_or_unknown :
    (∀ (lt : LoadTester) (env : Env) (maxRPS : Int),
      calculateRPS lt env "constant" maxRPS = .ok maxRPS) ∧
    (∀ (lt : LoadTester) (env : Env) (profile : String) (maxRPS : Int),
      profile ≠ "constant" → profile ≠ "ramp_up" → profile ≠ "spike" →
      profile ≠ "wave" → profile ≠ "step" → profile ≠ "stress" →
      calculateRPS lt env profile maxRPS = .ok maxRPS) := by
  refine ⟨fun lt env maxRPS => ?_, fun lt env profile maxRPS h1 h2 h3 h4 h5 h6 =>
    calculateRPS_default lt env profile maxRPS h1 h2 h3 h4 h5 h6⟩
  simp only [calculateRPS]

/-- Witness for C13: the unknown profile "sawtooth" at `maxRPS = 250`. -/
theorem calculateRPS_constant_or_unknown_witness :
    calculateRPS initialLoadTester (sampleEnv 7000000000 0) "sawtooth" 250 = .ok 250 :=
  calculateRPS_constant_or_unknown.2 initialLoadTester (sampleEnv 7000000000 0) "sawtooth" 250
    (by decide) (by decide) (by decide) (by decide) (by decide) (by decide)

/-! ## The step profile (claim C7) -/

/-- The step index is the floor of the elapsed seconds over thirty: the rounded
quotient `elapsed / 30` has the floor of the exact one. -/
theorem step_index (d : Int) (hd : 0 ≤ d) (hD : d < 9223372036854775808) :
    toInt (f64 (Seconds d / 30)) = ⌊Seconds d / 30⌋ ∧
    0 ≤ ⌊Seconds d / 30⌋ ∧ ⌊Seconds d / 30⌋ ≤ 17179869184 := by
  have hs0 := Seconds_nonneg d hd
  have hs1 := Seconds_le d hd hD
  have hq : 0 ≤ Seconds d / 30 := by positivity
  have hf : 0 ≤ f64 (Seconds d / 30) := f64_nonneg _ hq
  refine ⟨?_, Int.floor_nonneg.mpr hq, ?_⟩
  · rw [toInt_of_nonneg _ hf]
    exact floor_f64_div30 (Seconds d) hs0 (Seconds_idem d) (by norm_num; linarith)
  · have : Seconds d / 30 ≤ ((17179869184 : Int) : ℚ) := by
      push_cast
      linarith
    have := Int.floor_le_floor this
    simpa using this

theorem calculateRPS_step_formula (lt : LoadTester) (env : Env) (maxRPS d : Int)
    (hm : 1 ≤ maxRPS) (hM : maxRPS ≤ 1000) (hd : 0 ≤ d) (hD : d < 9223372036854775808) :
    calculateRPS lt { env with now := lt.state.StartTime + d } "step" maxRPS =
      .ok (min maxRPS ((⌊Seconds d / 30⌋ + 1) * max 1 (maxRPS / 5))) := by
  have h5 : maxRPS.tdiv 5 = maxRPS / 5 := Int.tdiv_eq_ediv (by omega) (by omega)
  obtain ⟨hk, hk0, hk1⟩ := step_index d hd hD
  simp only [calculateRPS, elapsed_eq, hk, h5]
  have hsz : (if maxRPS / 5 = 0 then 1 else maxRPS / 5) = max 1 (maxRPS / 5) := by
    split
    · omega
    · omega
  rw [hsz]
  have hS1 : 1 ≤ max 1 (maxRPS / 5) := le_max_left _ _
  have hS2 : max 1 (maxRPS / 5) ≤ 200 := max_le (by norm_num) (by omega)
  generalize max 1 (maxRPS / 5) = S at hS1 hS2 ⊢
  generalize ⌊Seconds d / 30⌋ = k at hk0 hk1 ⊢
  have hw1 : wrap64 (k + 1) = k + 1 := wrap64_of_range _ (by omega) (by omega)
  have hp0 : 0 ≤ (k + 1) * S := by positivity
  have hp1 : (k + 1) * S ≤ 17179869185 * 200 :=
    mul_le_mul (by omega) hS2 (by omega) (by norm_num)
  have hw2 : wrap64 ((k + 1) * S) = (k + 1) * S :=
    wrap64_of_range _ (by omega) (by omega)
  rw [hw1, hw2]
  by_cases hgt : (k + 1) * S > maxRPS
  · rw [if_pos hgt, min_eq_left (le_of_lt hgt)]
  · rw [if_neg hgt, min_eq_right (not_lt.mp hgt)]

/-- C7 (amended): for every `maxRPS` of `[1, 1000]` (the rates `startHandler`
admits) and every elapsed time `t >= 0` (a duration `d` in nanoseconds,
`t = Seconds d` as `calculateRPS` measures it), the step profile returns
`min(maxRPS, (floor(t/30) + 1) * max(1, maxRPS/5))`; for `maxRPS = 100` that is
20 at `t = 0`, 20 at `t = 29`, 40 at `t = 30` and 100 at `t = 150`. -/
theorem calculateRPS_step :
    (∀ (lt : LoadTester) (env : Env) (maxRPS d : Int), 1 ≤ maxRPS → maxRPS ≤ 1000 →
      0 ≤ d → d < 9223372036854775808 →
      calculateRPS lt { env with now := lt.state.StartTime + d } "step" maxRPS =
        .ok (min maxRPS ((⌊Seconds d / 30⌋ + 1) * max 1 (maxRPS / 5)))) ∧
    (∀ (lt : LoadTester) (env : Env),
      calculateRPS lt { env with now := lt.state.StartTime + 0 * Second } "step" 100 = .ok 20 ∧
      calculateRPS lt { env with now := lt.state.StartTime + 29 * Second } "step" 100 = .ok 20 ∧
      calculateRPS lt { env with now := lt.state.StartTime + 30 * Second } "step" 100 = .ok 40 ∧
      calculateRPS lt { env with now := lt.state.StartTime + 150 * Second } "step" 100
        = .ok 100) := by
  refine ⟨fun lt env maxRPS d hm hM hd hD => calculateRPS_step_formula lt env maxRPS d hm hM hd hD,
    fun lt env => ⟨?_, ?_, ?_, ?_⟩⟩
  · rw [calculateRPS_step_formula lt env 100 _ (by norm_num) (by norm_num) (by norm_num [Second])
      (by norm_num [Second]), Seconds_mul_Second 0 (by norm_num) (by norm_num)]
    norm_num
  · rw [calculateRPS_step_formula lt env 100 _ (by norm_num) (by norm_num) (by norm_num [Second])
      (by norm_num [Second]), Seconds_mul_Second 29 (by norm_num) (by norm_num)]
    norm_num
  · rw [calculateRPS_step_formula lt env 100 _ (by norm_num) (by norm_num) (by norm_num [Second])
      (by norm_num [Second]), Seconds_mul_Second 30 (by norm_num) (by norm_num)]
    norm_num
  · rw [calculateRPS_step_formula lt env 100 _ (by norm_num) (by norm_num) (by norm_num [Second])
      (by norm_num [Second]), Seconds_mul_Second 150 (by norm_num) (by norm_num)]
    norm_num

/-- Witness for C7 (amended): `maxRPS = 7` at 45 seconds gives `2 * max(1, 1) = 2`. -/
theorem calculateRPS_step_witness :
    calculateRPS initialLoadTester
      { sampleEnv 0 0 with now := initialLoadTester.state.StartTime + 45 * Second } "step" 7
      = .ok 2 := by
  have h := calculateRPS_step.1 initialLoadTester (sampleEnv 0 0) 7 (45 * Second)
    (by norm_num) (by norm_num) (by norm_num [Second]) (by norm_num [Second])
  rw [h, Seconds_mul_Second 45 (by norm_num) (by norm_num)]
  norm_num

/-- Counterexample to C7 as stated: at `maxRPS = 2^63 - 1` and `t = 150` the
product `6 * (maxRPS / 5)` wraps around, and the step profile returns
`-7378697629483820650`, not `min(maxRPS, 6 * max(1, maxRPS/5)) = maxRPS`. -/
theorem calculateRPS_step_counterexample :
    calculateRPS initialLoadTester
      { sampleEnv 0 0 with now := initialLoadTester.state.StartTime + 150 * Second } "step"
      9223372036854775807 = .ok (-7378697629483820650) ∧
    min (9223372036854775807 : Int)
      ((⌊Seconds (150 * Second) / 30⌋ + 1) * max 1 (9223372036854775807 / 5))
      = 9223372036854775807 ∧
    calculateRPS initialLoadTester
      { sampleEnv 0 0 with now := initialLoadTester.state.StartTime + 150 * Second } "step"
      9223372036854775807 ≠
      .ok (min (9223372036854775807 : Int)
        ((⌊Seconds (150 * Second) / 30⌋ + 1) * max 1 (9223372036854775807 / 5))) := by
  have hs : Seconds (150 * Second) = 150 :=
    by simpa using Seconds_mul_Second 150 (by norm_num) (by norm_num)
  obtain ⟨hk, _, _⟩ := step_index (150 * Second) (by norm_num [Second]) (by norm_num [Second])
  have hfl : ⌊Seconds (150 * Second) / 30⌋ = 5 := by
    rw [hs]
    norm_num
  have hv : calculateRPS initialLoadTester
      { sampleEnv 0 0 with now := initialLoadTester.state.StartTime + 150 * Second } "step"
      9223372036854775807 = .ok (-7378697629483820650) := by
    have h1 : Int.tdiv 9223372036854775807 5 = 1844674407370955161 := by decide
    have h2 : wrap64 (5 + 1) = 6 := by decide
    have h3 : wrap64 (6 * 1844674407370955161) = -7378697629483820650 := by decide
    have h4 : ¬ ((1844674407370955161 : Int) = 0) := by decide
    have h5 : ¬ ((-7378697629483820650 : Int) > 9223372036854775807) := by decide
    simp only [calculateRPS, elapsed_eq, hk, hfl, h1, h2, if_neg h4, h3, if_neg h5]
  have hmin : min (9223372036854775807 : Int)
      ((⌊Seconds (150 * Second) / 30⌋ + 1) * max 1 (9223372036854775807 / 5))
      = 9223372036854775807 := by
    rw [hfl]
    decide
  refine ⟨hv, hmin, ?_⟩
  rw [hv, hmin]
  intro h
  injection h with h
  omega

/-! ## The ramp-up profile (claim C8) -/

/-- The float64 value that the ramp-up branch truncates lies in `[1, maxRPS]`. -/
theorem ramp_inner_bounds (m : Int) (s : ℚ) (hm1 : 1 ≤ m) (hm2 : m < 2 ^ 53)
    (hs0 : 0 ≤ s) (hs1 : s < 60) :
    1 ≤ f64 (1 + f64 (((m : ℚ) - 1) * f64 (s / 60))) ∧
    f64 (1 + f64 (((m : ℚ) - 1) * f64 (s / 60))) ≤ (m : ℚ) := by
  have hmq : (0 : ℚ) ≤ (m : ℚ) - 1 := by
    have : (1 : ℚ) ≤ (m : ℚ) := by exact_mod_cast hm1
    linarith
  have hp0 : 0 ≤ f64 (s / 60) := f64_nonneg _ (by positivity)
  have hp1 : f64 (s / 60) ≤ 1 := by
    have := f64_le_int (s / 60) 1 (by norm_num) (by norm_num) (by
      rw [div_le_iff₀ (by norm_num)]
      push_cast
      linarith)
    simpa using this
  have hx0 : 0 ≤ f64 (((m : ℚ) - 1) * f64 (s / 60)) := f64_nonneg _ (mul_nonneg hmq hp0)
  have hx1 : f64 (((m : ℚ) - 1) * f64 (s / 60)) ≤ (m : ℚ) - 1 := by
    have hle : ((m : ℚ) - 1) * f64 (s / 60) ≤ ((m - 1 : Int) : ℚ) := by
      push_cast
      calc ((m : ℚ) - 1) * f64 (s / 60) ≤ ((m : ℚ) - 1) * 1 :=
            mul_le_mul_of_nonneg_left hp1 hmq
        _ = (m : ℚ) - 1 := by ring
    have := f64_le_int _ (m - 1) (by omega) (by omega) hle
    push_cast at this
    exact this
  constructor
  · have := f64_ge_int (1 + f64 (((m : ℚ) - 1) * f64 (s / 60))) 1 (by norm_num) (by norm_num)
      (by push_cast; linarith)
    simpa using this
  · exact f64_le_int _ m (by omega) hm2 (by linarith)

/-- The float64 value that the ramp-up branch truncates does not decrease with
the elapsed seconds. -/
theorem ramp_inner_mono (m : Int) (s1 s2 : ℚ) (hm1 : 1 ≤ m) (h : s1 ≤ s2) :
    f64 (1 + f64 (((m : ℚ) - 1) * f64 (s1 / 60))) ≤
    f64 (1 + f64 (((m : ℚ) - 1) * f64 (s2 / 60))) := by
  have hmq : (0 : ℚ) ≤ (m : ℚ) - 1 := by
    have : (1 : ℚ) ≤ (m : ℚ) := by exact_mod_cast hm1
    linarith
  have h1 : f64 (s1 / 60) ≤ f64 (s2 / 60) := f64_mono _ _ (by linarith)
  have h2 : f64 (((m : ℚ) - 1) * f64 (s1 / 60)) ≤ f64 (((m : ℚ) - 1) * f64 (s2 / 60)) :=
    f64_mono _ _ (mul_le_mul_of_nonneg_left h1 hmq)
  exact f64_mono _ _ (by linarith)

theorem calculateRPS_ramp_up_formula (lt : LoadTester) (env : Env) (maxRPS d : Int)
    (hm : 1 ≤ maxRPS) (hM : maxRPS < 2 ^ 53) :
    calculateRPS lt { env with now := lt.state.StartTime + d } "ramp_up" maxRPS =
      .ok (if Seconds d < 60 then
          toInt (f64 (1 + f64 (((maxRPS : ℚ) - 1) * f64 (Seconds d / 60))))
        else maxRPS) := by
  have hw : wrap64 (maxRPS - 1) = maxRPS - 1 := wrap64_of_range _ (by omega) (by omega)
  have hc : f64 ((maxRPS - 1 : Int) : ℚ) = (maxRPS : ℚ) - 1 := by
    rw [f64_intCast (maxRPS - 1) (by omega) (by omega)]
    push_cast
    ring
  simp only [calculateRPS, elapsed_eq, hw, hc]
  by_cases h60 : Seconds d < 60
  · rw [if_neg (not_le.mpr h60), if_pos h60]
  · rw [if_pos (not_lt.mp h60), if_neg h60]

/-- The ramp-up value as a number: in `[1, maxRPS]`, and monotone in the
duration. -/
theorem ramp_value (maxRPS d : Int) (hm : 1 ≤ maxRPS) (hM : maxRPS < 2 ^ 53) (hd : 0 ≤ d) :
    1 ≤ (if Seconds d < 60 then
          toInt (f64 (1 + f64 (((maxRPS : ℚ) - 1) * f64 (Seconds d / 60))))
        else maxRPS) ∧
    (if Seconds d < 60 then
          toInt (f64 (1 + f64 (((maxRPS : ℚ) - 1) * f64 (Seconds d / 60))))
        else maxRPS) ≤ maxRPS := by
  by_cases h60 : Seconds d < 60
  · rw [if_pos h60]
    obtain ⟨b1, b2⟩ := ramp_inner_bounds maxRPS (Seconds d) hm hM (Seconds_nonneg d hd) h60
    rw [toInt_of_nonneg _ (by linarith)]
    constructor
    · have := Int.floor_le_floor b1
      simpa using this
    · have := Int.floor_le_floor b2
      simpa using this
  · rw [if_neg h60]
    exact ⟨hm, le_refl _⟩

theorem ramp_value_mono (maxRPS d1 d2 : Int) (hm : 1 ≤ maxRPS) (hM : maxRPS < 2 ^ 53)
    (h1 : 0 ≤ d1) (h12 : d1 ≤ d2) (h2 : d2 < 9223372036854775808) :
    (if Seconds d1 < 60 then
          toInt (f64 (1 + f64 (((maxRPS : ℚ) - 1) * f64 (Seconds d1 / 60))))
        else maxRPS) ≤
    (if Seconds d2 < 60 then
          toInt (f64 (1 + f64 (((maxRPS : ℚ) - 1) * f64 (Seconds d2 / 60))))
        else maxRPS) := by
  have hs1 := Seconds_nonneg d1 h1
  have hs12 := Seconds_mono d1 d2 h1 h12 h2
  by_cases hb : Seconds d2 < 60
  · have ha : Seconds d1 < 60 := lt_of_le_of_lt hs12 hb
    rw [if_pos ha, if_pos hb]
    obtain ⟨a1, _⟩ := ramp_inner_bounds maxRPS (Seconds d1) hm hM hs1 ha
    obtain ⟨c1, _⟩ := ramp_inner_bounds maxRPS (Seconds d2) hm hM (le_trans hs1 hs12) hb
    rw [toInt_of_nonneg _ (by linarith), toInt_of_nonneg _ (by linarith)]
    exact Int.floor_le_floor (ramp_inner_mono maxRPS _ _ hm hs12)
  · rw [if_neg hb]
    exact (ramp_value maxRPS d1 hm hM h1).2

theorem roundPos_ge_sub (q : ℚ) : q - 2 ^ ulpExp q / 2 ≤ roundPos q := by
  unfold roundPos
  have h := roundEven_ge (q / 2 ^ ulpExp q)
  have hp := two_zpow_pos (ulpExp q)
  calc q - 2 ^ ulpExp q / 2 = (q / 2 ^ ulpExp q - 1 / 2) * 2 ^ ulpExp q := by field_simp; ring
    _ ≤ (roundEven (q / 2 ^ ulpExp q) : ℚ) * 2 ^ ulpExp q :=
        mul_le_mul_of_nonneg_right h (le_of_lt hp)

/-- Rounding error of `f64` below `2^(k+53)`: at most half of `2^k`. -/
theorem f64_err (q : ℚ) (k : Int) (h0 : 0 ≤ q) (hq : q < 2 ^ (k + 53)) (hk : -1074 ≤ k) :
    q - 2 ^ k / 2 ≤ f64 q ∧ f64 q ≤ q + 2 ^ k / 2 := by
  have hpk := two_zpow_pos k
  rcases eq_or_lt_of_le h0 with h | h
  · rw [← h, f64_zero]
    constructor <;> linarith
  · have he := ulpExp_le_of_lt q k h hk hq
    have hle : (2 : ℚ) ^ ulpExp q ≤ 2 ^ k := zpow_le_zpow_right₀ (by norm_num) he
    rw [f64_of_nonneg q h0]
    have h1 := roundPos_ge_sub q
    have h2 := roundPos_le_add q
    constructor <;> linarith

/-- For rates up to 1000 the float64 value of the ramp is within `2^-40` of the
exact value `1 + (maxRPS - 1) * s / 60`. -/
theorem ramp_inner_err (m : Int) (s : ℚ) (hm1 : 1 ≤ m) (hm2 : m ≤ 1000)
    (hs0 : 0 ≤ s) (hs1 : s < 60) :
    1 + ((m : ℚ) - 1) * s / 60 - 1 / 1099511627776 ≤
      f64 (1 + f64 (((m : ℚ) - 1) * f64 (s / 60))) ∧
    f64 (1 + f64 (((m : ℚ) - 1) * f64 (s / 60))) ≤
      1 + ((m : ℚ) - 1) * s / 60 + 1 / 1099511627776 := by
  have hmq0 : (0 : ℚ) ≤ (m : ℚ) - 1 := by
    have : (1 : ℚ) ≤ (m : ℚ) := by exact_mod_cast hm1
    linarith
  have hmq1 : (m : ℚ) - 1 ≤ 999 := by
    have : (m : ℚ) ≤ 1000 := by exact_mod_cast hm2
    linarith
  obtain ⟨b1, b2⟩ := ramp_inner_bounds m s hm1 (by omega) hs0 hs1
  -- progress
  have hq0 : (0 : ℚ) ≤ s / 60 := by positivity
  have hq1 : s / 60 < 1 := by rw [div_lt_iff₀ (by norm_num)]; linarith
  obtain ⟨p1, p2⟩ := f64_err (s / 60) (-53) hq0 (by norm_num; linarith) (by norm_num)
  have hp0 : 0 ≤ f64 (s / 60) := f64_nonneg _ hq0
  have hp1 : f64 (s / 60) ≤ 1 := by
    have := f64_le_int (s / 60) 1 (by norm_num) (by norm_num) (by push_cast; linarith)
    simpa using this
  -- product
  have hx0 : 0 ≤ ((m : ℚ) - 1) * f64 (s / 60) := mul_nonneg hmq0 hp0
  have hx1 : ((m : ℚ) - 1) * f64 (s / 60) ≤ 999 := by
    calc ((m : ℚ) - 1) * f64 (s / 60) ≤ 999 * 1 := mul_le_mul hmq1 hp1 hp0 (by norm_num)
      _ = 999 := by ring
  obtain ⟨x1, x2⟩ := f64_err (((m : ℚ) - 1) * f64 (s / 60)) (-43) hx0
    (by norm_num; linarith) (by norm_num)
  -- sum
  have hfx0 : 0 ≤ f64 (((m : ℚ) - 1) * f64 (s / 60)) := f64_nonneg _ hx0
  have hfx1 : f64 (((m : ℚ) - 1) * f64 (s / 60)) ≤ 999 := by
    have := f64_le_int _ 999 (by norm_num) (by norm_num) (by push_cast; exact hx1)
    simpa using this
  obtain ⟨y1, y2⟩ := f64_err (1 + f64 (((m : ℚ) - 1) * f64 (s / 60))) (-43) (by linarith)
    (by norm_num; linarith) (by norm_num)
  -- the error of the progress, scaled by the rate
  have hs1' : ((m : ℚ) - 1) * (s / 60 - 2 ^ (-53 : Int) / 2) ≤ ((m : ℚ) - 1) * f64 (s / 60) :=
    mul_le_mul_of_nonneg_left p1 hmq0
  have hs2' : ((m : ℚ) - 1) * f64 (s / 60) ≤ ((m : ℚ) - 1) * (s / 60 + 2 ^ (-53 : Int) / 2) :=
    mul_le_mul_of_nonneg_left p2 hmq0
  have hsc : ((m : ℚ) - 1) * (2 ^ (-53 : Int) / 2) ≤ 999 * (2 ^ (-53 : Int) / 2) :=
    mul_le_mul_of_nonneg_right hmq1 (by positivity)
  norm_num at x1 x2 y1 y2 hs1' hs2' hsc
  constructor <;> linarith

/-- Within one of the exact truncation. -/
theorem floor_near (a b : ℚ) (h1 : b - 1 / 1099511627776 ≤ a) (h2 : a ≤ b + 1 / 1099511627776) :
    ⌊b⌋ - 1 ≤ ⌊a⌋ ∧ ⌊a⌋ ≤ ⌊b⌋ + 1 := by
  have ha1 := Int.floor_le a
  have ha2 := Int.lt_floor_add_one a
  have hb1 := Int.floor_le b
  have hb2 := Int.lt_floor_add_one b
  constructor
  · have : ((⌊b⌋ - 1 : Int) : ℚ) < (⌊a⌋ : ℚ) + 1 := by
      push_cast
      linarith
    have : ⌊b⌋ - 1 < ⌊a⌋ + 1 := by exact_mod_cast this
    omega
  · have : (⌊a⌋ : ℚ) < ((⌊b⌋ + 2 : Int) : ℚ) := by
      push_cast
      linarith
    have : ⌊a⌋ < ⌊b⌋ + 2 := by exact_mod_cast this
    omega

theorem f64_44_60 : f64 (44 / 60) = 6605279453476727 / 9007199254740992 := by
  rw [f64_eval (44 / 60) (-53) 6605279453476727 (by norm_num) (by norm_num) (by norm_num)
    (by unfold roundEven; norm_num)]
  norm_num

theorem f64_75_p : f64 (((76 : ℚ) - 1) * (6605279453476727 / 9007199254740992)) =
    7740561859543039 / 140737488355328 := by
  rw [f64_eval _ (-47) 7740561859543039 (by norm_num) (by norm_num) (by norm_num)
    (by unfold roundEven; norm_num)]
  norm_num

theorem f64_ramp_76 : f64 (1 + 7740561859543039 / 140737488355328) =
    7881299347898367 / 140737488355328 := by
  rw [f64_eval _ (-47) 7881299347898367 (by norm_num) (by norm_num) (by norm_num)
    (by unfold roundEven; norm_num)]
  norm_num

/-- C8 (amended): for every `maxRPS` with `1 <= maxRPS < 2^53` (where the
conversion of `maxRPS` to `float64` is exact) and every elapsed time `t >= 0`
(a duration `d` in nanoseconds, `t = Seconds d` as `calculateRPS` measures it),
the ramp-up profile returns the truncation of the float64 evaluation of
`1 + (maxRPS-1) * (t/60)` for `t < 60` and `maxRPS` for `t >= 60`; the value
lies in `[1, maxRPS]` and, for `maxRPS <= 1000`, within 1 of the truncation of
the exact `1 + (maxRPS-1)*t/60`; it is non-decreasing in the elapsed time on
`[0, 60]`, equals 1 at `t = 0` and `maxRPS` at `t = 60`; for `maxRPS = 100` it
gives 1 at `t = 0`, 50 at `t = 30` and 100 at `t = 60`. -/
theorem calculateRPS_ramp_up :
    (∀ (lt : LoadTester) (env : Env) (maxRPS d : Int), 1 ≤ maxRPS → maxRPS < 2 ^ 53 → 0 ≤ d →
      ∃ v : Int,
        calculateRPS lt { env with now := lt.state.StartTime + d } "ramp_up" maxRPS = .ok v ∧
        v = (if Seconds d < 60 then
              toInt (f64 (1 + f64 (((maxRPS : ℚ) - 1) * f64 (Seconds d / 60))))
            else maxRPS) ∧
        1 ≤ v ∧ v ≤ maxRPS ∧
        (maxRPS ≤ 1000 → Seconds d < 60 →
          ⌊1 + ((maxRPS : ℚ) - 1) * Seconds d / 60⌋ - 1 ≤ v ∧
          v ≤ ⌊1 + ((maxRPS : ℚ) - 1) * Seconds d / 60⌋ + 1)) ∧
    (∀ (lt : LoadTester) (env1 env2 : Env) (maxRPS d1 d2 : Int), 1 ≤ maxRPS →
      maxRPS < 2 ^ 53 → 0 ≤ d1 → d1 ≤ d2 → d2 ≤ 60 * Second →
      ∃ v1 v2 : Int,
        calculateRPS lt { env1 with now := lt.state.StartTime + d1 } "ramp_up" maxRPS = .ok v1 ∧
        calculateRPS lt { env2 with now := lt.state.StartTime + d2 } "ramp_up" maxRPS = .ok v2 ∧
        v1 ≤ v2) ∧
    (∀ (lt : LoadTester) (env : Env) (maxRPS : Int), 1 ≤ maxRPS → maxRPS < 2 ^ 53 →
      calculateRPS lt { env with now := lt.state.StartTime + 0 * Second } "ramp_up" maxRPS
        = .ok 1 ∧
      calculateRPS lt { env with now := lt.state.StartTime + 60 * Second } "ramp_up" maxRPS
        = .ok maxRPS) ∧
    (∀ (lt : LoadTester) (env : Env),
      calculateRPS lt { env with now := lt.state.StartTime + 0 * Second } "ramp_up" 100 = .ok 1 ∧
      calculateRPS lt { env with now := lt.state.StartTime + 30 * Second } "ramp_up" 100
        = .ok 50 ∧
      calculateRPS lt { env with now := lt.state.StartTime + 60 * Second } "ramp_up" 100
        = .ok 100) := by
  have h0 : ∀ (lt : LoadTester) (env : Env) (maxRPS : Int), 1 ≤ maxRPS → maxRPS < 2 ^ 53 →
      calculateRPS lt { env with now := lt.state.StartTime + 0 * Second } "ramp_up" maxRPS
        = .ok 1 := by
    intro lt env maxRPS hm hM
    have h1 : f64 (1 : ℚ) = 1 := by simpa using f64_natCast 1 (by norm_num)
    rw [calculateRPS_ramp_up_formula lt env maxRPS _ hm hM,
      Seconds_mul_Second 0 (by norm_num) (by norm_num)]
    norm_num [f64_zero, h1, toInt]
  have h60 : ∀ (lt : LoadTester) (env : Env) (maxRPS : Int), 1 ≤ maxRPS → maxRPS < 2 ^ 53 →
      calculateRPS lt { env with now := lt.state.StartTime + 60 * Second } "ramp_up" maxRPS
        = .ok maxRPS := by
    intro lt env maxRPS hm hM
    rw [calculateRPS_ramp_up_formula lt env maxRPS _ hm hM,
      Seconds_mul_Second 60 (by norm_num) (by norm_num)]
    norm_num
  refine ⟨?_, ?_, fun lt env maxRPS hm hM => ⟨h0 lt env maxRPS hm hM, h60 lt env maxRPS hm hM⟩,
    fun lt env => ⟨h0 lt env 100 (by norm_num) (by norm_num), ?_,
      h60 lt env 100 (by norm_num) (by norm_num)⟩⟩
  · intro lt env maxRPS d hm hM hd
    obtain ⟨b1, b2⟩ := ramp_value maxRPS d hm hM hd
    refine ⟨_, calculateRPS_ramp_up_formula lt env maxRPS d hm hM, rfl, b1, b2, ?_⟩
    intro h1000 h60'
    rw [if_pos h60']
    obtain ⟨c1, _⟩ := ramp_inner_bounds maxRPS (Seconds d) hm hM (Seconds_nonneg d hd) h60'
    obtain ⟨e1, e2⟩ := ramp_inner_err maxRPS (Seconds d) hm h1000 (Seconds_nonneg d hd) h60'
    rw [toInt_of_nonneg _ (by linarith)]
    exact floor_near _ _ e1 e2
  · intro lt env1 env2 maxRPS d1 d2 hm hM h1 h12 h2
    exact ⟨_, _, calculateRPS_ramp_up_formula lt env1 maxRPS d1 hm hM,
      calculateRPS_ramp_up_formula lt env2 maxRPS d2 hm hM,
      ramp_value_mono maxRPS d1 d2 hm hM h1 h12 (by unfold Second at h2; omega)⟩
  · have h99 : f64 (((100 : ℚ) - 1) * (1 / 2)) = 99 / 2 := by
      have := f64_dyadic 99 (-1) (by norm_num) (by norm_num)
      norm_num at this
      norm_num
      exact this
    have h101 : f64 (1 + 99 / 2) = 101 / 2 := by
      have := f64_dyadic 101 (-1) (by norm_num) (by norm_num)
      norm_num at this
      norm_num
      exact this
    have h30 : ((30 : ℚ)) / 60 = 1 / 2 := by norm_num
    rw [calculateRPS_ramp_up_formula lt env 100 _ (by norm_num) (by norm_num),
      Seconds_mul_Second 30 (by norm_num) (by norm_num)]
    simp only [Int.cast_ofNat, h30, f64_half, h99, h101]
    norm_num [toInt]

/-- Witness for C8 (amended): `maxRPS = 61` at 45 seconds. -/
theorem calculateRPS_ramp_up_witness :
    ∃ v : Int,
      calculateRPS initialLoadTester
        { sampleEnv 0 0 with now := initialLoadTester.state.StartTime + 45 * Second }
        "ramp_up" 61 = .ok v ∧
      v = (if Seconds (45 * Second) < 60 then
            toInt (f64 (1 + f64 ((((61 : Int) : ℚ) - 1) * f64 (Seconds (45 * Second) / 60))))
          else 61) ∧
      1 ≤ v ∧ v ≤ 61 ∧
      ((61 : Int) ≤ 1000 → Seconds (45 * Second) < 60 →
        ⌊1 + (((61 : Int) : ℚ) - 1) * Seconds (45 * Second) / 60⌋ - 1 ≤ v ∧
        v ≤ ⌊1 + (((61 : Int) : ℚ) - 1) * Seconds (45 * Second) / 60⌋ + 1) :=
  calculateRPS_ramp_up.1 initialLoadTester (sampleEnv 0 0) 61 (45 * Second)
    (by norm_num) (by norm_num) (by norm_num [Second])

/-- Counterexample to C8 as stated: at `maxRPS = 76` and `t = 44` the ramp-up
profile returns 55, while the truncation of `1 + (76-1)*44/60 = 56` is 56: the
quotient `44/60` and the product round down in float64. -/
theorem calculateRPS_ramp_up_counterexample :
    calculateRPS initialLoadTester
      { sampleEnv 0 0 with now := initialLoadTester.state.StartTime + 44 * Second }
      "ramp_up" 76 = .ok 55 ∧
    (if Seconds (44 * Second) < 60 then ⌊1 + ((76 : ℚ) - 1) * Seconds (44 * Second) / 60⌋
      else 76) = 56 ∧
    calculateRPS initialLoadTester
      { sampleEnv 0 0 with now := initialLoadTester.state.StartTime + 44 * Second }
      "ramp_up" 76 ≠
      .ok (if Seconds (44 * Second) < 60 then
          ⌊1 + ((76 : ℚ) - 1) * Seconds (44 * Second) / 60⌋ else 76) := by
  have hs : Seconds (44 * Second) = 44 := by
    simpa using Seconds_mul_Second 44 (by norm_num) (by norm_num)
  have hv : calculateRPS initialLoadTester
      { sampleEnv 0 0 with now := initialLoadTester.state.StartTime + 44 * Second }
      "ramp_up" 76 = .ok 55 := by
    rw [calculateRPS_ramp_up_formula initialLoadTester (sampleEnv 0 0) 76 _ (by norm_num)
      (by norm_num), hs]
    simp only [Int.cast_ofNat, f64_44_60, f64_75_p, f64_ramp_76]
    norm_num [toInt]
  have hx : (if Seconds (44 * Second) < 60 then
      ⌊1 + ((76 : ℚ) - 1) * Seconds (44 * Second) / 60⌋ else 76) = 56 := by
    rw [hs]
    norm_num
  refine ⟨hv, hx, ?_⟩
  rw [hv, hx]
  intro h
  injection h with h
  omega

/-! ## The dispatcher rate of a run -/

theorem toInt_bounds (x : ℚ) (n : Int) (h0 : 0 ≤ x) (h1 : x ≤ (n : ℚ)) :
    0 ≤ toInt x ∧ toInt x ≤ n := by
  rw [toInt_of_nonneg x h0]
  refine ⟨Int.floor_nonneg.mpr h0, ?_⟩
  have := Int.floor_le_floor h1
  simpa using this

theorem env_now_eq (lt : LoadTester) (env : Env) :
    env = { env with now := lt.state.StartTime + Since env.now lt.state.StartTime } := by
  cases env
  simp only [Since, Env.mk.injEq, and_true]
  omega

/-- For every profile but stress and every rate of `[1, 1000]`, at an elapsed
time of `[0, 2^63)` nanoseconds and with a sine in `[-1, 1]`, `calculateRPS`
returns a value of `[0, maxRPS]`. -/
theorem calculateRPS_bounds (lt : LoadTester) (env : Env) (profile : String) (maxRPS : Int)
    (hp : profile ≠ "stress") (hm : 1 ≤ maxRPS) (hM : maxRPS ≤ 1000)
    (ht : lt.state.StartTime ≤ env.now)
    (hT : env.now - lt.state.StartTime < 9223372036854775808)
    (hsin : ∀ x : ℚ, -1 ≤ env.sin x ∧ env.sin x ≤ 1) :
    ∃ v : Int, calculateRPS lt env profile maxRPS = .ok v ∧ 0 ≤ v ∧ v ≤ maxRPS := by
  have hd0 : 0 ≤ Since env.now lt.state.StartTime := by unfold Since; omega
  have hd1 : Since env.now lt.state.StartTime < 9223372036854775808 := by unfold Since; omega
  have hmq : (1 : ℚ) ≤ (maxRPS : ℚ) := by exact_mod_cast hm
  by_cases h1 : profile = "constant"
  · subst h1
    exact ⟨maxRPS, by simp only [calculateRPS], by omega, le_refl _⟩
  by_cases h2 : profile = "ramp_up"
  · subst h2
    rw [env_now_eq lt env]
    obtain ⟨b1, b2⟩ := ramp_value maxRPS _ hm (by omega) hd0
    exact ⟨_, calculateRPS_ramp_up_formula lt env maxRPS _ hm (by omega), by omega, b2⟩
  by_cases h3 : profile = "spike"
  · subst h3
    simp only [calculateRPS]
    split
    · exact ⟨1, rfl, by omega, hm⟩
    · exact ⟨maxRPS, rfl, by omega, le_refl _⟩
  by_cases h4 : profile = "wave"
  · subst h4
    simp only [calculateRPS]
    have hfm : f64 (maxRPS : ℚ) = maxRPS := f64_intCast maxRPS (by omega) (by omega)
    obtain ⟨a, ha⟩ := Int.eq_ofNat_of_zero_le (show 0 ≤ maxRPS by omega)
    have hamp : f64 (f64 (maxRPS : ℚ) / 2) = (maxRPS : ℚ) / 2 := by
      rw [hfm, ha]
      have := f64_dyadic a (-1) (by omega) (by norm_num)
      have e : ((a : ℕ) : ℚ) * 2 ^ (-1 : Int) = ((a : Int) : ℚ) / 2 := by
        norm_num
        ring
      rw [e] at this
      exact this
    rw [hamp]
    have hs := hsin (f64 (f64 (2 * mathPi *
      Seconds (Since env.now lt.state.StartTime)) / 60))
    have hA0 : (0 : ℚ) ≤ (maxRPS : ℚ) / 2 := by linarith
    have hlo : -((maxRPS : ℚ) / 2) ≤ (maxRPS : ℚ) / 2 *
        env.sin (f64 (f64 (2 * mathPi * Seconds (Since env.now lt.state.StartTime)) / 60)) := by
      have := mul_le_mul_of_nonneg_left hs.1 hA0
      linarith
    have hhi : (maxRPS : ℚ) / 2 *
        env.sin (f64 (f64 (2 * mathPi * Seconds (Since env.now lt.state.StartTime)) / 60)) ≤
        (maxRPS : ℚ) / 2 := by
      have := mul_le_mul_of_nonneg_left hs.2 hA0
      linarith
    have hflo := f64_mono _ _ hlo
    rw [f64_neg, ← hamp, f64_idem, hamp] at hflo
    have hfhi := f64_mono _ _ hhi
    rw [← hamp, f64_idem, hamp] at hfhi
    have hsum0 : 0 ≤ f64 ((maxRPS : ℚ) / 2 + f64 ((maxRPS : ℚ) / 2 *
        env.sin (f64 (f64 (2 * mathPi * Seconds (Since env.now lt.state.StartTime)) / 60)))) :=
      f64_nonneg _ (by linarith)
    have hsum1 := f64_le_int ((maxRPS : ℚ) / 2 + f64 ((maxRPS : ℚ) / 2 *
        env.sin (f64 (f64 (2 * mathPi * Seconds (Since env.now lt.state.StartTime)) / 60))))
        maxRPS (by omega) (by omega) (by linarith)
    obtain ⟨t1, t2⟩ := toInt_bounds _ maxRPS hsum0 hsum1
    exact ⟨_, rfl, t1, t2⟩
  by_cases h5 : profile = "step"
  · subst h5
    rw [env_now_eq lt env, calculateRPS_step_formula lt env maxRPS _ hm hM hd0 hd1]
    obtain ⟨_, hk0, _⟩ := step_index _ hd0 hd1
    refine ⟨_, rfl, ?_, min_le_left _ _⟩
    have hS : 1 ≤ max 1 (maxRPS / 5) := le_max_left _ _
    have hP : 0 ≤ (⌊Seconds (Since env.now lt.state.StartTime) / 30⌋ + 1) *
        max 1 (maxRPS / 5) := by positivity
    exact le_min (by omega) hP
  · exact ⟨maxRPS, calculateRPS_default lt env profile maxRPS h1 h2 h3 h4 h5 hp,
      by omega, le_refl _⟩

/-- For a rate of `[1, 1000]` the period `time.Second / rate` is computed
without a panic and is at least one millisecond. -/
theorem period_ok (c : Int) (h1 : 1 ≤ c) (h2 : c ≤ 1000) :
    intDiv Second c = .ok (Second / c) ∧ 1000000 ≤ Second / c := by
  have hne : c ≠ 0 := by omega
  have ht : Second.tdiv c = Second / c :=
    Int.tdiv_eq_ediv (by unfold Second; omega) (by omega)
  refine ⟨by simp [intDiv, hne, ht], ?_⟩
  apply Int.le_ediv_of_mul_le (by omega)
  unfold Second
  omega

theorem init_ok (lt : LoadTester) (h1 : 1 ≤ lt.state.CurrentRPS)
    (h2 : lt.state.CurrentRPS ≤ 1000) :
    runLoadTest.init lt =
      .ok (RunLocals.mk lt.state.CurrentRPS lt.state.Profile lt.state.RPS
        (Second / lt.state.CurrentRPS)) := by
  have hp := period_ok lt.state.CurrentRPS h1 h2
  have hpos : ¬ (Second / lt.state.CurrentRPS ≤ 0) := by omega
  simp only [runLoadTest.init, hp.1, NewTicker, if_neg hpos]

/-- The unlocked half of a firing keeps the locals well tuned and does not
panic; the rate it hands to the locked half is the new current rate. -/
theorem profileDecide_ok (lt : LoadTester) (l : RunLocals) (env : Env)
    (hc1 : 1 ≤ l.currentRPS) (hc2 : l.currentRPS ≤ l.maxRPS) (hm : l.maxRPS ≤ 1000)
    (hp : l.profile ≠ "stress") (hper : l.tickPeriod = Second / l.currentRPS)
    (ht : lt.state.StartTime ≤ env.now)
    (hT : env.now - lt.state.StartTime < 9223372036854775808)
    (hsin : ∀ x : ℚ, -1 ≤ env.sin x ∧ env.sin x ≤ 1) :
    ∃ (w : Option Int) (l2 : RunLocals),
      runLoadTest.profileDecide lt l env = .ok (w, l2) ∧
      1 ≤ l2.currentRPS ∧ l2.currentRPS ≤ l2.maxRPS ∧ l2.maxRPS = l.maxRPS ∧
      l2.profile = l.profile ∧ l2.tickPeriod = Second / l2.currentRPS ∧
      (w = none ∧ l2 = l ∨ w = some l2.currentRPS) := by
  unfold runLoadTest.profileDecide
  by_cases h0 : (lt.isRunning == 0) = true
  · rw [if_pos h0]
    exact ⟨none, l, rfl, hc1, hc2, rfl, rfl, hper, Or.inl ⟨rfl, rfl⟩⟩
  · rw [if_neg h0]
    obtain ⟨v, hv, hv0, hv1⟩ := calculateRPS_bounds lt env l.profile l.maxRPS hp
      (by omega) hm ht hT hsin
    simp only [hv]
    by_cases hn : (v != l.currentRPS && decide (v > 0)) = true
    · rw [if_pos hn]
      have hpos : 0 < v := by
        simp at hn
        exact hn.2
      have hpd := period_ok v (by omega) (by omega)
      have hnp : ¬ (Second / v ≤ 0) := by omega
      simp only [hpd.1, tickerReset, if_neg hnp]
      exact ⟨_, _, rfl, by show 1 ≤ v; omega, hv1, rfl, rfl, rfl, Or.inr rfl⟩
    · rw [if_neg hn]
      exact ⟨none, l, rfl, hc1, hc2, rfl, rfl, hper, Or.inl ⟨rfl, rfl⟩⟩

/-- One firing with nothing in between keeps the dispatcher well tuned and does
not panic. -/
theorem profileTick_ok (lt : LoadTester) (l : RunLocals) (env : Env)
    (hok : TickOk lt l) (ht : lt.state.StartTime ≤ env.now)
    (hT : env.now - lt.state.StartTime < 9223372036854775808)
    (hsin : ∀ x : ℚ, -1 ≤ env.sin x ∧ env.sin x ≤ 1) :
    ∃ (lt2 : LoadTester) (l2 : RunLocals),
      runLoadTest.profileTick lt l env = .ok (lt2, l2) ∧ TickOk lt2 l2 ∧
      lt2.state.StartTime = lt.state.StartTime ∧ l2.maxRPS = l.maxRPS := by
  obtain ⟨hc1, hc2, hm, hp, hper, hst⟩ := hok
  obtain ⟨w, l2, hd, g1, g2, g3, g4, g5, g6⟩ :=
    profileDecide_ok lt l env hc1 hc2 hm hp hper ht hT hsin
  unfold runLoadTest.profileTick
  rw [hd]
  rcases g6 with ⟨hw, hl⟩ | hw
  · subst hw
    subst hl
    exact ⟨lt, l2, rfl, ⟨hc1, hc2, hm, hp, hper, hst⟩, rfl, rfl⟩
  · subst hw
    exact ⟨_, l2, rfl, ⟨g1, g2, by rw [g3]; exact hm, by rw [g4]; exact hp, g5, rfl⟩, rfl, g3⟩

/-- Any sequence of firings with nothing in between keeps the dispatcher well
tuned and does not panic. -/
theorem profileLoop_ok (envs : List Env) :
    ∀ (lt : LoadTester) (l : RunLocals), TickOk lt l →
      (∀ env ∈ envs, lt.state.StartTime ≤ env.now ∧
        env.now - lt.state.StartTime < 9223372036854775808 ∧
        ∀ x : ℚ, -1 ≤ env.sin x ∧ env.sin x ≤ 1) →
      ∃ (lt2 : LoadTester) (l2 : RunLocals),
        runLoadTest.profileLoop lt l envs = .ok (lt2, l2) ∧ TickOk lt2 l2 ∧
        l2.maxRPS = l.maxRPS := by
  induction envs with
  | nil =>
    intro lt l hok _
    exact ⟨lt, l, rfl, hok, rfl⟩
  | cons env rest ih =>
    intro lt l hok henv
    have hh := henv env (List.mem_cons_self _ _)
    obtain ⟨lt1, l1, h1, hok1, hst1, hm1⟩ := profileTick_ok lt l env hok hh.1 hh.2.1 hh.2.2
    obtain ⟨lt2, l2, h2, hok2, hm2⟩ := ih lt1 l1 hok1 (by
      intro e he
      have := henv e (List.mem_cons_of_mem _ he)
      rw [hst1]
      exact this)
    refine ⟨lt2, l2, ?_, hok2, by rw [hm2, hm1]⟩
    simp only [runLoadTest.profileLoop, h1]
    exact h2

/-- A firing whose computed rate is 0 or the current rate changes nothing. -/
theorem profileTick_hold (lt : LoadTester) (l : RunLocals) (env : Env) (newRPS : Int)
    (hc : calculateRPS lt env l.profile l.maxRPS = .ok newRPS)
    (h : newRPS = 0 ∨ newRPS = l.currentRPS) :
    runLoadTest.profileTick lt l env = .ok (lt, l) := by
  unfold runLoadTest.profileTick runLoadTest.profileDecide
  by_cases h0 : (lt.isRunning == 0) = true
  · rw [if_pos h0]
  · rw [if_neg h0]
    simp only [hc]
    have hn : ¬ ((newRPS != l.currentRPS && decide (newRPS > 0)) = true) := by
      rcases h with h | h
      · simp [h]
      · simp [h]
    rw [if_neg hn]

/-- The state an accepted start request leaves behind. -/
theorem startHandler_started (lt : LoadTester) (r : HttpRequest) (now : Int)
    (req : StartRequest) (hm : r.Method = "POST") (hb : r.Body = some req)
    (hlo : 1 ≤ req.RPS) (hhi : req.RPS ≤ 1000)
    (hidle : lt.state.Running = false) (hflag : lt.isRunning ≠ 1) :
    (startHandler lt r now).1.state.StartTime = now ∧
    (startHandler lt r now).1.state.RPS = req.RPS ∧
    (startHandler lt r now).1.state.Profile = req.Profile ∧
    (startHandler lt r now).1.state.CurrentRPS =
      (if req.Profile = "constant" ∨ req.Profile = "spike" then req.RPS else 1) := by
  have hg : (lt.state.Running || lt.isRunning == 1) = false := by
    simp [hidle, hflag]
  have hok : (decide (req.RPS ≤ 0) || decide (req.RPS > 1000)) = false := by
    have h1 : ¬ req.RPS ≤ 0 := by omega
    have h2 : ¬ req.RPS > 1000 := by omega
    simp [h1, h2]
  by_cases hp : req.Profile = "constant" ∨ req.Profile = "spike"
  · simp [startHandler, hm, hb, hg, hok, hp, forceStop]
  · simp [startHandler, hm, hb, hg, hok, hp, forceStop]

theorem boundedEnv_sin (now : Int) (x : ℚ) :
    -1 ≤ (boundedEnv now).sin x ∧ (boundedEnv now).sin x ≤ 1 := by
  unfold boundedEnv
  exact ⟨le_max_left _ _, max_le (by norm_num) (min_le_left _ _)⟩

/-- When the prologue of `runLoadTest` runs on the state that `startHandler`
left (no stop in between) and the firings run with nothing in between: for a
start from an idle state with `1 <= maxRPS <= 1000` and a profile other than
stress, the prologue creates the ticker without a panic, and after every
sequence of controller firings at elapsed times of `[0, 2^63)` nanoseconds
(sine in `[-1, 1]`) the dispatcher's current rate lies in `[1, maxRPS]`, the run
state shows the same rate, and the tick period `time.Second / currentRPS` is
computed without a division by zero and is at least one millisecond. -/
theorem profileLoop_after_start (lt : LoadTester) (r : HttpRequest) (now : Int)
    (req : StartRequest) (envs : List Env)
    (hm : r.Method = "POST") (hb : r.Body = some req) (hlo : 1 ≤ req.RPS)
    (hhi : req.RPS ≤ 1000) (hp : req.Profile ≠ "stress")
    (hidle : lt.state.Running = false) (hflag : lt.isRunning ≠ 1)
    (henv : ∀ env ∈ envs, now ≤ env.now ∧ env.now - now < 9223372036854775808 ∧
      ∀ x : ℚ, -1 ≤ env.sin x ∧ env.sin x ≤ 1) :
    ∃ (l0 : RunLocals) (lt2 : LoadTester) (l2 : RunLocals),
      runLoadTest.init (startHandler lt r now).1 = .ok l0 ∧
      runLoadTest.profileLoop (startHandler lt r now).1 l0 envs = .ok (lt2, l2) ∧
      1 ≤ l2.currentRPS ∧ l2.currentRPS ≤ req.RPS ∧
      lt2.state.CurrentRPS = l2.currentRPS ∧
      intDiv Second l2.currentRPS = .ok l2.tickPeriod ∧
      1000000 ≤ l2.tickPeriod := by
  obtain ⟨hst, hrps, hprof, hcur⟩ :=
    startHandler_started lt r now req hm hb hlo hhi hidle hflag
  have hc1 : 1 ≤ (startHandler lt r now).1.state.CurrentRPS := by
    rw [hcur]; split <;> omega
  have hc2 : (startHandler lt r now).1.state.CurrentRPS ≤ req.RPS := by
    rw [hcur]; split <;> omega
  have hinit := init_ok (startHandler lt r now).1 hc1 (by omega)
  have hok : TickOk (startHandler lt r now).1
      (RunLocals.mk (startHandler lt r now).1.state.CurrentRPS
        (startHandler lt r now).1.state.Profile (startHandler lt r now).1.state.RPS
        (Second / (startHandler lt r now).1.state.CurrentRPS)) := by
    refine ⟨hc1, ?_, ?_, ?_, rfl, rfl⟩
    · show (startHandler lt r now).1.state.CurrentRPS ≤ (startHandler lt r now).1.state.RPS
      rw [hrps]; exact hc2
    · show (startHandler lt r now).1.state.RPS ≤ 1000
      rw [hrps]; exact hhi
    · show (startHandler lt r now).1.state.Profile ≠ "stress"
      rw [hprof]; exact hp
  obtain ⟨lt2, l2, hloop, ⟨h1, h2, _, _, hper, hs⟩, hmax⟩ :=
    profileLoop_ok envs _ _ hok (by
      intro env he
      rw [hst]
      exact henv env he)
  have hmax2 : l2.maxRPS = req.RPS := by rw [hmax]; exact hrps
  have hpd := period_ok l2.currentRPS h1 (by omega)
  refine ⟨_, lt2, l2, hinit, hloop, h1, by omega, hs, ?_, ?_⟩
  · rw [hper]; exact hpd.1
  · rw [hper]; exact hpd.2

/-- The ramp-up request at 100 RPS on the initial state, followed by firings at
30, 60 and 61 seconds, satisfies the hypotheses of `profileLoop_after_start`. -/
theorem profileLoop_after_start_example :
    ∃ (l0 : RunLocals) (lt2 : LoadTester) (l2 : RunLocals),
      runLoadTest.init (startHandler initialLoadTester rampRequest 0).1 = .ok l0 ∧
      runLoadTest.profileLoop (startHandler initialLoadTester rampRequest 0).1 l0
        [boundedEnv 30000000000, boundedEnv 60000000000, boundedEnv 61000000000]
        = .ok (lt2, l2) ∧
      1 ≤ l2.currentRPS ∧ l2.currentRPS ≤ 100 ∧
      lt2.state.CurrentRPS = l2.currentRPS ∧
      intDiv Second l2.currentRPS = .ok l2.tickPeriod ∧
      1000000 ≤ l2.tickPeriod :=
  profileLoop_after_start initialLoadTester rampRequest 0
    { Endpoint := "/animals", RPS := 100, Profile := "ramp_up" }
    [boundedEnv 30000000000, boundedEnv 60000000000, boundedEnv 61000000000]
    rfl rfl (by decide) (by decide) (by decide) rfl (by decide)
    (by
      intro env he
      simp only [List.mem_cons, List.mem_singleton, List.not_mem_nil, or_false] at he
      rcases he with h | h | h
      · subst h
        exact ⟨by simp [boundedEnv], by simp [boundedEnv], boundedEnv_sin _⟩
      · subst h
        exact ⟨by simp [boundedEnv], by simp [boundedEnv], boundedEnv_sin _⟩
      · subst h
        exact ⟨by simp [boundedEnv], by simp [boundedEnv], boundedEnv_sin _⟩)

theorem ramp_100_at_30 (lt : LoadTester) (env : Env) :
    calculateRPS lt { env with now := lt.state.StartTime + 30 * Second } "ramp_up" 100
      = .ok 50 := by
  have h99 : f64 (((100 : ℚ) - 1) * (1 / 2)) = 99 / 2 := by
    have := f64_dyadic 99 (-1) (by norm_num) (by norm_num)
    norm_num at this
    norm_num
    exact this
  have h101 : f64 (1 + 99 / 2) = 101 / 2 := by
    have := f64_dyadic 101 (-1) (by norm_num) (by norm_num)
    norm_num at this
    norm_num
    exact this
  have h30 : ((30 : ℚ)) / 60 = 1 / 2 := by norm_num
  rw [calculateRPS_ramp_up_formula lt env 100 _ (by norm_num) (by norm_num),
    Seconds_mul_Second 30 (by norm_num) (by norm_num)]
  simp only [Int.cast_ofNat, h30, f64_half, h99, h101]
  norm_num [toInt]

/-! ## A stop between the halves of a firing (claim C4) -/

/-- C4 (the code fails the claim): the start request `rampRequest` is accepted
from the initial state and `runLoadTest` starts with rate 1; a controller firing
at 30 seconds passes the check of the atomic flag and decides on rate 50; a stop
request then runs `forceStop`; the firing then writes its rate under the state
lock.  The state reached has `Running = false` and `CurrentRPS = 50`, so
"running exactly when the current rate is positive" fails in a reachable
state. -/
theorem controller_write_after_stop :
    runLoadTest.init (startHandler initialLoadTester rampRequest 0).1 =
      .ok { currentRPS := 1, profile := "ramp_up", maxRPS := 100, tickPeriod := 1000000000 } ∧
    runLoadTest.profileDecide (startHandler initialLoadTester rampRequest 0).1
      { currentRPS := 1, profile := "ramp_up", maxRPS := 100, tickPeriod := 1000000000 }
      (boundedEnv 30000000000) =
      .ok (some 50,
        { currentRPS := 50, profile := "ramp_up", maxRPS := 100, tickPeriod := 20000000 }) ∧
    Reachable (runLoadTest.profileWrite
      (stopHandler (startHandler initialLoadTester rampRequest 0).1 stopRequest).1 50) ∧
    (runLoadTest.profileWrite
      (stopHandler (startHandler initialLoadTester rampRequest 0).1 stopRequest).1 50
      ).state.Running = false ∧
    (runLoadTest.profileWrite
      (stopHandler (startHandler initialLoadTester rampRequest 0).1 stopRequest).1 50
      ).state.CurrentRPS = 50 ∧
    ¬ ((runLoadTest.profileWrite
        (stopHandler (startHandler initialLoadTester rampRequest 0).1 stopRequest).1 50
        ).state.Running = true ↔
      (runLoadTest.profileWrite
        (stopHandler (startHandler initialLoadTester rampRequest 0).1 stopRequest).1 50
        ).state.CurrentRPS > 0) := by
  have hcalc : calculateRPS (startHandler initialLoadTester rampRequest 0).1
      (boundedEnv 30000000000) "ramp_up" 100 = .ok 50 :=
    ramp_100_at_30 (startHandler initialLoadTester rampRequest 0).1 (boundedEnv 30000000000)
  have hrun : (startHandler initialLoadTester rampRequest 0).1.isRunning = 1 := by decide
  have hdec : runLoadTest.profileDecide (startHandler initialLoadTester rampRequest 0).1
      { currentRPS := 1, profile := "ramp_up", maxRPS := 100, tickPeriod := 1000000000 }
      (boundedEnv 30000000000) =
      .ok (some 50,
        { currentRPS := 50, profile := "ramp_up", maxRPS := 100, tickPeriod := 20000000 }) := by
    simp only [runLoadTest.profileDecide, hrun, hcalc]
    rfl
  have t1 := Trace.step _ _ _ Trace.init (Step.start initialLoadTester rampRequest 0)
  have t2 := Trace.decided _ _ _ _ _ _ t1 hdec
  have t3 := Trace.step _ _ _ t2
    (Step.stop (startHandler initialLoadTester rampRequest 0).1 stopRequest)
  have t4 := Trace.written _ _ 50 t3 (List.mem_cons_self _ _)
  refine ⟨by rfl, hdec, ⟨_, t4⟩, by decide, by decide, by decide⟩

/-! ## A stop before the prologue of the run (claim C14) -/

/-- C14 (the code fails the claim): the start request `rampRequest`
(`maxRPS = 100`, profile "ramp_up") is accepted from the initial state; a stop
request arrives before the goroutine of `runLoadTest` has run its prologue.  The
state is reachable with `CurrentRPS = 0`, and the prologue computes the tick
period `time.Second / time.Duration(0)`: a division by zero, which panics. -/
theorem runLoadTest_init_after_stop :
    Reachable (stopHandler (startHandler initialLoadTester rampRequest 0).1 stopRequest).1 ∧
    (stopHandler (startHandler initialLoadTester rampRequest 0).1
      stopRequest).1.state.CurrentRPS = 0 ∧
    runLoadTest.init
      (stopHandler (startHandler initialLoadTester rampRequest 0).1 stopRequest).1 =
      .error "runtime error: integer divide by zero" := by
  have t1 := Trace.step _ _ _ Trace.init (Step.start initialLoadTester rampRequest 0)
  have t2 := Trace.step _ _ _ t1
    (Step.stop (startHandler initialLoadTester rampRequest 0).1 stopRequest)
  exact ⟨⟨_, t2⟩, by decide, by rfl⟩

end LoadTest
